import Mathlib

/-!
Verification of the ai-opensubtitles web client core against its
natural-language specification.

The TypeScript sources are shallowly embedded: pure functions become Lean
functions, browser-global state (localStorage, `navigator.onLine`,
`Math.random()`, the wall clock) becomes explicit parameters, and JavaScript
numbers are modelled as `ℚ` where fractional arithmetic matters
(jitter/backoff) and as `ℕ` for timestamps and counters.  JSON
(de)serialisation is treated as the identity on well-typed values; the
corruption paths the claims do not touch are noted where they are elided.
-/

/-! ## Generic helpers (JS string / array primitives) -/

/-- ASCII lower-casing of a character; models `String.prototype.toLowerCase`
restricted to the ASCII alphabet used by the keyword tables. -/
def lowerChar (c : Char) : Char :=
  if c.toNat ≥ 65 && c.toNat ≤ 90 then Char.ofNat (c.toNat + 32) else c

/-- `s.toLowerCase()` (ASCII). -/
def lowerStr (s : String) : String :=
  (s.toList.map lowerChar).asString

/-- Does `haystack` contain `needle` as a contiguous subsequence? -/
def containsSeq (needle : List Char) : List Char → Bool
  | [] => needle == []
  | x :: xs => needle.isPrefixOf (x :: xs) || containsSeq needle xs

/-- `haystack.includes(needle)` on strings. -/
def substrOf (needle haystack : String) : Bool :=
  containsSeq needle.toList haystack.toList

/-- `s.startsWith(pre)` on strings. -/
def strStartsWith (s pre : String) : Bool :=
  pre.toList.isPrefixOf s.toList

/-- Decimal digit value of a character, if any. -/
def digitVal (c : Char) : Option Nat :=
  if c.toNat ≥ 48 && c.toNat ≤ 57 then some (c.toNat - 48) else none

def parseNatAux : List Char → Nat → Option Nat
  | [], acc => some acc
  | c :: cs, acc =>
    match digitVal c with
    | some d => parseNatAux cs (acc * 10 + d)
    | none => none

/-- `parseInt(s, 10)` restricted to the non-negative decimal numerals this
client ever stores (it writes `String(Date.now() + …)`); a string that is
empty or contains a non-digit parses to `none` (NaN). -/
def parseNat (s : String) : Option Nat :=
  match s.toList with
  | [] => none
  | l => parseNatAux l 0

/-- Insert `x` into `l` after every element `y` with `le y x`; the building
block of a stable comparator sort. -/
def insertR (le : α → α → Bool) (x : α) : List α → List α
  | [] => [x]
  | y :: ys => if le y x then y :: insertR le x ys else x :: y :: ys

/-- Stable sort by a boolean comparator; models `Array.prototype.sort`
(required stable by ECMAScript) for a consistent comparator. -/
def jsSortBy (le : α → α → Bool) (l : List α) : List α :=
  l.foldl (fun acc x => insertR le x acc) []

/-! ## Browser localStorage

`localStorage` is a flat string-keyed string store.  We model it as an
association list in which `setItem` replaces any previous binding, so keys
are unique and `List.lookup` is `getItem`. -/

def Store := List (String × String)

def getItem (s : Store) (k : String) : Option String :=
  List.lookup k s

def setItem (s : Store) (k v : String) : Store :=
  (k, v) :: List.filter (fun p => p.1 != k) s

def removeItem (s : Store) (k : String) : Store :=
  List.filter (fun p => p.1 != k) s

/-! ## networkConfig.ts — configuration model

`src/utils/networkConfig.ts` loads `networkConfig.json` (data, not code)
into the `NetworkConfig` shape below; `errorTypes` keeps the JSON object's
insertion order, as `Object.entries` iterates it.  Only the fields the
retry/classification logic reads are modelled. -/

structure ErrorTypeConfig where
  enabled : Bool
  statusCodes : List Nat
  keywords : List String
  maxRetries : Nat
  delays : List ℚ
  maxDelay : ℚ
deriving DecidableEq

structure NetworkConfig where
  retryEnabled : Bool
  maxAttempts : Nat
  defaultBaseDelay : ℚ
  errorTypes : List (String × ErrorTypeConfig)
  multiplier : ℚ
  jitter : Bool
  jitterPercent : ℚ
  userMessages : List (String × String)
deriving DecidableEq

/-- `getUserMessage`: `userMessages[t] || userMessages.unknown` (an absent
entry — JS `undefined` — is modelled as the empty string). -/
def getUserMessage (cfg : NetworkConfig) (t : String) : String :=
  let v := (cfg.userMessages.lookup t).getD ""
  if v = "" then (cfg.userMessages.lookup "unknown").getD "" else v

/-! ## networkUtils.ts — error classification (claim C1) -/

inductive NetworkErrorType where
  | OFFLINE | TIMEOUT | PROXY_ERROR | CLOUDFLARE_ERROR
  | SERVER_ERROR | AUTH_ERROR | RATE_LIMIT | UNKNOWN
deriving DecidableEq

/-- Classified `NetworkError` (the `originalError` passthrough field carries
no behaviour and is omitted). -/
structure NetworkError where
  type : NetworkErrorType
  message : String
  isRetryable : Bool
deriving DecidableEq

/-- A thrown/rejected error value as the classifier reads it:
`error.status || 0` (a missing status is 0), `error.message` and
`error.responseText` may be absent. -/
structure ErrObj where
  status : Nat
  message : Option String
  responseText : Option String
deriving DecidableEq

/-- `createNetworkError`'s `typeMapping` table. -/
def typeMappingOf (n : String) : NetworkErrorType :=
  match n with
  | "rateLimitErrors" => .RATE_LIMIT
  | "cloudflareErrors" => .CLOUDFLARE_ERROR
  | "proxyErrors" => .PROXY_ERROR
  | "serverErrors" => .SERVER_ERROR
  | "timeoutErrors" => .TIMEOUT
  | "offlineErrors" => .OFFLINE
  | "authErrors" => .AUTH_ERROR
  | _ => .UNKNOWN

/-- `createNetworkError`'s `messageMapping` table. -/
def messageMappingOf (n : String) : String :=
  match n with
  | "rateLimitErrors" => "rateLimited"
  | "cloudflareErrors" => "cloudflare"
  | "proxyErrors" => "proxy"
  | "serverErrors" => "server"
  | "timeoutErrors" => "timeout"
  | "offlineErrors" => "offline"
  | "authErrors" => "auth"
  | _ => "unknown"

def createNetworkError (cfg : NetworkConfig) (errorTypeName : String)
    (isRetryable : Bool) : NetworkError :=
  ⟨typeMappingOf errorTypeName,
   getUserMessage cfg (messageMappingOf errorTypeName),
   isRetryable⟩

/-- One keyword matching pass:
`keywords.some(kw => errorMessage.includes(kw.toLowerCase()) || responseText.includes(kw.toLowerCase()))`
(`msg` and `rt` are already lower-cased by the caller). -/
def keywordHit (keywords : List String) (msg rt : String) : Bool :=
  keywords.any (fun kw => substrOf (lowerStr kw) msg || substrOf (lowerStr kw) rt)

/-- The `for (const [errorTypeName, errorConfig] of Object.entries(...))`
loop of `categorizeNetworkError`: skip disabled entries, return the first
entry whose (non-empty) status-code list contains `status` or whose
(non-empty) keyword list hits the message/body. -/
def scanErrorTypes (msg rt : String) (status : Nat) :
    List (String × ErrorTypeConfig) → Option (String × ErrorTypeConfig)
  | [] => none
  | (n, c) :: rest =>
    if !c.enabled then scanErrorTypes msg rt status rest
    else if c.statusCodes.length > 0 && c.statusCodes.contains status then some (n, c)
    else if c.keywords.length > 0 && keywordHit c.keywords msg rt then some (n, c)
    else scanErrorTypes msg rt status rest

/-- `categorizeNetworkError` (networkUtils.ts:48-78); `onLine` is
`navigator.onLine`. -/
def categorizeNetworkError (cfg : NetworkConfig) (onLine : Bool)
    (error : Option ErrObj) : NetworkError :=
  match error with
  | none => ⟨.UNKNOWN, getUserMessage cfg "unknown", false⟩
  | some e =>
    let errorMessage := lowerStr (e.message.getD "")
    let responseText := lowerStr (e.responseText.getD "")
    match scanErrorTypes errorMessage responseText e.status cfg.errorTypes with
    | some (n, c) => createNetworkError cfg n (decide (c.maxRetries > 0))
    | none =>
      if !onLine then createNetworkError cfg "offlineErrors" true
      else ⟨.UNKNOWN, getUserMessage cfg "unknown", false⟩

/-- The claim's per-definition match predicate, written from the spec's
words: the definition's status-code set contains the observed status, or
its keyword set matches the message/body (case-insensitively). -/
def definitionMatches (c : ErrorTypeConfig) (msg rt : String) (status : Nat) : Bool :=
  c.statusCodes.contains status || keywordHit c.keywords msg rt

/-! ## networkConfig.ts — retry delays and jitter (claim C2)

`Math.random()` becomes the parameter `r ∈ [0,1]`; `Math.round x` is
`⌊x + 1/2⌋`. -/

/-- `applyJitter` (networkConfig.ts). -/
def applyJitter (cfg : NetworkConfig) (delay : ℚ) (r : ℚ) : ℚ :=
  if !cfg.jitter then delay
  else
    let jitterAmount := delay * (cfg.jitterPercent / 100)
    let jitter := (r * 2 - 1) * jitterAmount
    max 100 ((⌊delay + jitter + 1/2⌋ : ℤ) : ℚ)

/-- `getDelayForErrorType` (networkConfig.ts).  JS `||` fallbacks: a missing
or empty `delays` array, or a last entry of `0`, falls back to
`retry.defaultBaseDelay`; a missing config or zero `maxDelay` caps at
30000. -/
def getDelayForErrorType (cfg : NetworkConfig) (errorType : String)
    (attemptNumber : Nat) (r : ℚ) : ℚ :=
  match cfg.errorTypes.lookup errorType with
  | none =>
    applyJitter cfg (min (cfg.defaultBaseDelay * cfg.multiplier ^ attemptNumber) 30000) r
  | some ec =>
    if attemptNumber ≥ ec.delays.length then
      let baseDelay :=
        match ec.delays.getLast? with
        | some d => if d = 0 then cfg.defaultBaseDelay else d
        | none => cfg.defaultBaseDelay
      let cap := if ec.maxDelay = 0 then 30000 else ec.maxDelay
      applyJitter cfg (min (baseDelay * cfg.multiplier ^ attemptNumber) cap) r
    else
      applyJitter cfg (ec.delays.getD attemptNumber 0) r

/-- The pre-jitter delay `getDelayForErrorType` feeds into `applyJitter`,
factored out for the statement of claim C2. -/
def preJitterDelay (cfg : NetworkConfig) (errorType : String)
    (attemptNumber : Nat) : ℚ :=
  match cfg.errorTypes.lookup errorType with
  | none => min (cfg.defaultBaseDelay * cfg.multiplier ^ attemptNumber) 30000
  | some ec =>
    if attemptNumber ≥ ec.delays.length then
      let baseDelay :=
        match ec.delays.getLast? with
        | some d => if d = 0 then cfg.defaultBaseDelay else d
        | none => cfg.defaultBaseDelay
      let cap := if ec.maxDelay = 0 then 30000 else ec.maxDelay
      min (baseDelay * cfg.multiplier ^ attemptNumber) cap
    else ec.delays.getD attemptNumber 0

/-- Modelled from the spec: the fallback delay the claim describes for
attempts beyond the configured array, namely
`lastConfiguredDelay * multiplier^(attemptNumber - lastIndex)` capped at
`maxDelay` (compare with `preJitterDelay`, which is what the code
computes). -/
def claimedFallbackDelay (cfg : NetworkConfig) (errorType : String)
    (attemptNumber : Nat) : ℚ :=
  match cfg.errorTypes.lookup errorType with
  | none => 0
  | some ec =>
    match ec.delays.getLast? with
    | none => 0
    | some last =>
      min (last * cfg.multiplier ^ (attemptNumber - (ec.delays.length - 1))) ec.maxDelay

/-! ## languageConsolidation — the language consolidation engine (claims C4, C5)

Faithful embedding of `consolidateLanguages` and its two fixed tables.  The
JS `Map` is an insertion-ordered association list with unique keys;
`localeCompare` is modelled by `Ord String` comparison (both are total
orders on the display names involved, and the claims never depend on the
particular collation). -/

structure LanguageInfo where
  language_code : String
  language_name : String
deriving DecidableEq

structure LanguageVariant where
  code : String
  name : String
  api : String
deriving DecidableEq

structure ConsolidatedLanguage where
  id : String
  displayName : String
  variants : List LanguageVariant
deriving DecidableEq

/-- `LANGUAGE_CONSOLIDATION_MAP`, verbatim and in source order. -/
def LANGUAGE_CONSOLIDATION_MAP : List (String × String) :=
  [("de", "german"), ("de-DE", "german"), ("de-CH", "german-ch"),
   ("en", "english"), ("en-US", "english"), ("en-GB", "english"),
   ("en-AU", "english"), ("en-IE", "english"), ("en-NZ", "english"),
   ("en-ZA", "english"), ("en-IN", "english"), ("en-AB", "english"),
   ("en-WL", "english"), ("en_us", "english"), ("en_uk", "english"),
   ("en_au", "english"),
   ("fr", "french"), ("fr-FR", "french"), ("fr-CA", "french-ca"),
   ("es", "spanish"), ("es-ES", "spanish"), ("es-US", "spanish"),
   ("es-MX", "spanish-mx"), ("es-419", "spanish-419"),
   ("pt", "portuguese"), ("pt-PT", "portuguese"), ("pt-BR", "portuguese-br"),
   ("zh", "chinese-simplified"), ("zh-CN", "chinese-simplified"),
   ("zh-TW", "chinese-traditional"), ("zh-HK", "chinese-traditional"),
   ("ar", "arabic"), ("ar-AE", "arabic"), ("ar-SA", "arabic"),
   ("it", "italian"), ("it-IT", "italian"),
   ("nl", "dutch"), ("nl-NL", "dutch"),
   ("ru", "russian"), ("ru-RU", "russian"),
   ("ja", "japanese"), ("ja-JP", "japanese"),
   ("ko", "korean"), ("ko-KR", "korean"),
   ("no", "norwegian"), ("no-NO", "norwegian"), ("nb-NO", "norwegian"),
   ("nn", "norwegian"),
   ("auto", "auto-detect")]

/-- `CONSOLIDATED_DISPLAY_NAMES`, verbatim. -/
def CONSOLIDATED_DISPLAY_NAMES : List (String × String) :=
  [("auto-detect", "Auto-detect"), ("german", "German"),
   ("german-ch", "German (Switzerland)"), ("english", "English"),
   ("french", "French"), ("french-ca", "French (Canada)"),
   ("spanish", "Spanish"), ("spanish-mx", "Spanish (Mexico)"),
   ("spanish-419", "Spanish (Latin America)"), ("portuguese", "Portuguese"),
   ("portuguese-br", "Portuguese (Brazil)"),
   ("chinese-simplified", "Chinese (Simplified)"),
   ("chinese-traditional", "Chinese (Traditional)"), ("arabic", "Arabic"),
   ("italian", "Italian"), ("dutch", "Dutch"), ("russian", "Russian"),
   ("japanese", "Japanese"), ("korean", "Korean"), ("norwegian", "Norwegian")]

/-- `LANGUAGE_CONSOLIDATION_MAP[code] || code` (no mapped value is the empty
string, so JS `||` is exactly a lookup with fallback). -/
def consolidatedIdOf (code : String) : String :=
  (LANGUAGE_CONSOLIDATION_MAP.lookup code).getD code

/-- `CONSOLIDATED_DISPLAY_NAMES[id] || lang.language_name`. -/
def displayNameFor (id fallbackName : String) : String :=
  (CONSOLIDATED_DISPLAY_NAMES.lookup id).getD fallbackName

def mkVariant (l : LanguageInfo) (api : String) : LanguageVariant :=
  ⟨l.language_code, l.language_name, api⟩

/-- Push the variant unless the exact `(code, api)` combination already
exists (the `existingVariant` check). -/
def addVariantIfNew (l : LanguageInfo) (api : String)
    (c : ConsolidatedLanguage) : ConsolidatedLanguage :=
  if c.variants.any (fun v => v.code == l.language_code && v.api == api) then c
  else { c with variants := c.variants ++ [mkVariant l api] }

/-- Update the (unique) map entry with the given id; `Map.get` + mutation. -/
def updateById (cid : String) (f : ConsolidatedLanguage → ConsolidatedLanguage) :
    List ConsolidatedLanguage → List ConsolidatedLanguage
  | [] => []
  | c :: cs => if c.id == cid then f c :: cs else c :: updateById cid f cs

/-- The per-language body of the `forEach` loops: create the entry if the
canonical id is new (the code creates it with empty `variants` and
immediately pushes the first variant), then push the variant if it is a new
`(code, api)` combination. -/
def processLang (acc : List ConsolidatedLanguage) (api : String)
    (l : LanguageInfo) : List ConsolidatedLanguage :=
  let cid := consolidatedIdOf l.language_code
  if acc.any (fun c => c.id == cid) then
    updateById cid (addVariantIfNew l api) acc
  else
    acc ++ [⟨cid, displayNameFor cid l.language_name, [mkVariant l api]⟩]

/-- The sort comparator: auto-detect first, then alphabetical by
`displayName` (`localeCompare` as `Ord String`); `le a b` iff the JS
comparator returns ≤ 0 on `(a, b)`. -/
def clangLe (a b : ConsolidatedLanguage) : Bool :=
  if a.id == "auto-detect" then true
  else if b.id == "auto-detect" then false
  else compare a.displayName b.displayName != Ordering.gt

/-- `consolidateLanguages` (languageConsolidation.ts). -/
def consolidateLanguages (languagesByApi : List (String × List LanguageInfo)) :
    List ConsolidatedLanguage :=
  let m := languagesByApi.foldl
    (fun acc p => p.2.foldl (fun acc l => processLang acc p.1 l) acc) []
  jsSortBy clangLe m

/-- Number of variants of `c` matching the `(code, api)` pair. -/
def vcountOne (c : ConsolidatedLanguage) (code api : String) : Nat :=
  (c.variants.filter (fun v => v.code == code && v.api == api)).length

/-- Total number of variant entries matching `(code, api)` across a whole
consolidated output. -/
def vcount (out : List ConsolidatedLanguage) (code api : String) : Nat :=
  (out.map (fun c => vcountOne c code api)).sum

/-- Does the input supply the `(code, api)` pair? -/
def pairSupplied (languagesByApi : List (String × List LanguageInfo))
    (code api : String) : Bool :=
  languagesByApi.any
    (fun p => p.1 == api && p.2.any (fun l => l.language_code == code))

/-! ## cache.ts — CacheManager (claims C6, C10)

`CacheManager` persists `CacheItem` records as JSON strings under
`ai_opensubtitles_`-prefixed keys.  For the expiry claims (C6) the store is
typed (`CStore V`), treating JSON round-tripping as the identity; for the
namespace claim (C10) only keys matter and the raw string `Store` is used.
The TTL read from the persisted config at write time is the
`cacheExpirationHours` value (`?? 24`), passed here as `Option ℕ`. -/

structure CacheItem (V : Type) where
  data : V
  timestamp : Nat
  expiresAt : Nat
deriving DecidableEq

def CStore (V : Type) := List (String × CacheItem V)

def cstoreGet (s : CStore V) (k : String) : Option (CacheItem V) :=
  List.lookup k s

def cstoreSet (s : CStore V) (k : String) (v : CacheItem V) : CStore V :=
  (k, v) :: List.filter (fun p => p.1 != k) s

def cstoreRemove (s : CStore V) (k : String) : CStore V :=
  List.filter (fun p => p.1 != k) s

/-- `CacheManager.getCacheDuration`: `(config.cacheExpirationHours ?? 24)`
hours in milliseconds (a missing config object also yields the 24h
default). -/
def getCacheDuration (cfgHours : Option Nat) : Nat :=
  (cfgHours.getD 24) * 60 * 60 * 1000

/-- `CacheManager.set` (cache.ts:24-38). -/
def CacheManager.set (s : CStore V) (key : String) (data : V)
    (now : Nat) (cfgHours : Option Nat) : CStore V :=
  cstoreSet s ("ai_opensubtitles_" ++ key)
    ⟨data, now, now + getCacheDuration cfgHours⟩

/-- `CacheManager.get` (cache.ts:40-61): returns the possibly-self-healed
store and the result; an entry past its stored `expiresAt` is removed and
reads as `none`. -/
def CacheManager.get (s : CStore V) (key : String) (now : Nat) :
    CStore V × Option V :=
  match cstoreGet s ("ai_opensubtitles_" ++ key) with
  | none => (s, none)
  | some item =>
    if now > item.expiresAt then (cstoreRemove s ("ai_opensubtitles_" ++ key), none)
    else (s, some item.data)

/-- `CacheManager.remove`. -/
def CacheManager.remove (s : CStore V) (key : String) : CStore V :=
  cstoreRemove s ("ai_opensubtitles_" ++ key)

/-- `CacheManager.isExpired` (cache.ts:84-96). -/
def CacheManager.isExpired (s : CStore V) (key : String) (now : Nat) : Bool :=
  match cstoreGet s ("ai_opensubtitles_" ++ key) with
  | none => true
  | some item => decide (now > item.expiresAt)

/-- `CacheManager.clear` (cache.ts:71-82): remove every localStorage key
starting with `ai_opensubtitles_`. -/
def CacheManager.clear (s : Store) : Store :=
  List.filter (fun p => !(strStartsWith p.1 "ai_opensubtitles_")) s

/-! ## storageService.ts — Session/Config store (claim C7) -/

def CONFIG_KEY : String := "ai_opensubtitles_config"
def TOKEN_KEY : String := "ai_opensubtitles_token"
def TOKEN_EXPIRY_KEY : String := "ai_opensubtitles_token_expiry"
def TOKEN_VALIDITY_HOURS : Nat := 6

/-- `storageService.saveToken` (cache.test.ts embed of storageService.ts):
stores the token and stamps `now + TOKEN_VALIDITY_HOURS` as its expiry. -/
def saveToken (s : Store) (token : String) (now : Nat) : Store :=
  setItem (setItem s TOKEN_KEY token) TOKEN_EXPIRY_KEY
    (toString (now + TOKEN_VALIDITY_HOURS * 3600 * 1000))

/-- `storageService.clearToken`. -/
def clearToken (s : Store) : Store :=
  removeItem (removeItem s TOKEN_KEY) TOKEN_EXPIRY_KEY

/-- `storageService.getValidToken`: `!token || !expiry` (JS falsiness: a
missing key or an empty string) yields `none`; a numeric expiry in the past
clears the token as a side effect; a non-numeric expiry (`parseInt` NaN)
fails the `>` comparison and the token is returned.  Returns the
possibly-updated store with the result. -/
def getValidToken (s : Store) (now : Nat) : Store × Option String :=
  let token := (getItem s TOKEN_KEY).getD ""
  let expiry := (getItem s TOKEN_EXPIRY_KEY).getD ""
  if token = "" || expiry = "" then (s, none)
  else
    match parseNat expiry with
    | some e => if now > e then (clearToken s, none) else (s, some token)
    | none => (s, some token)

/-! ## api.ts — OpenSubtitlesAPI.login (claim C8)

The single `fetch` of `login` is an oracle parameter; JSON parsing of the
error body is part of the oracle (`parsedErrBody` is
`JSON.parse(errorText).error || .message`: the outer `none` is a parse
failure, `some none` a parse without such a field).  `login` returns its
result together with the number of network requests it issued. -/

structure LoginHttpResponse where
  ok : Bool
  status : Nat
  statusText : String
  errorText : String
  parsedErrBody : Option (Option String)
  token : Option String
deriving DecidableEq

inductive FetchOutcome where
  | resp (r : LoginHttpResponse)
  | thrown (e : ErrObj)
deriving DecidableEq

structure LoginResult where
  success : Bool
  token : Option String
  error : Option String
deriving DecidableEq

/-- The `!response.ok` error-message computation of `login`, including the
user-friendly overrides for `blocked` / 401 / 429. -/
def loginErrorMessage (resp : LoginHttpResponse) : String :=
  let base := "HTTP " ++ toString resp.status ++ ": " ++ resp.statusText
  let m :=
    match resp.parsedErrBody with
    | some (some v) => v
    | some none => base
    | none => if resp.errorText = "" then base else resp.errorText
  if lowerStr m = "blocked" then
    "Account temporarily blocked by the API. Please wait a few minutes and try again."
  else if resp.status = 401 then "Invalid username or password."
  else if resp.status = 429 then "Too many login attempts. Please wait before trying again."
  else m

/-- `OpenSubtitlesAPI.login` (api.ts:457-505).  The pair's second component
counts the network login requests issued (0 or 1: the method performs a
single `fetch` and is not wrapped in `apiRequestWithRetry`).  The
token-caching side effect on success is `saveToken` (modelled above). -/
def login (apiKey username password : String) (cfg : NetworkConfig)
    (onLine : Bool) (fetchResult : FetchOutcome) : LoginResult × Nat :=
  if username = "" || password = "" then
    (⟨false, none, some "Username and password are required"⟩, 0)
  else if apiKey = "" then
    (⟨false, none, some "API Key is required for authentication"⟩, 0)
  else
    match fetchResult with
    | .thrown e =>
      (⟨false, none, some (categorizeNetworkError cfg onLine (some e)).message⟩, 1)
    | .resp r =>
      if !r.ok then (⟨false, none, some (loginErrorMessage r)⟩, 1)
      else
        match r.token with
        | some t => (⟨true, some t, none⟩, 1)
        | none => (⟨false, none, some "No token received from server"⟩, 1)

/-! ## APIContext.tsx — login de-duplication (claim C9)

`performLogin` runs on the browser's single-threaded event loop.  Its entry
section — the `authPromiseRef.current` check, the creation of the body
promise and the `authPromiseRef.current = promise` assignment — contains no
`await`, so it executes atomically; a second overlapping caller therefore
observes the ref already set and awaits the same promise.  The body
(`loadCachedToken` / `getCredits` / fresh `api.login`) is modelled by
`performLoginBody`, which reports the boolean outcome together with the
number of login network requests it makes. -/

inductive EntryAction where
  | awaitExisting
  | startNew
deriving DecidableEq

/-- The atomic entry section of `performLogin` over the shared
`authPromiseRef` cell (`some ()` = a login promise is in flight). -/
def performLoginEntry (authPromiseRef : Option Unit) : EntryAction × Option Unit :=
  match authPromiseRef with
  | some _ => (.awaitExisting, authPromiseRef)
  | none => (.startNew, some ())

/-- The body of `performLogin`: with a valid cached token whose
`getCredits` probe succeeds, no login request is made; otherwise (no cached
token, or probe failure after which the cached token is cleared) the body
performs the single fresh `login` attempt. -/
def performLoginBody (hasCachedToken creditsOk : Bool)
    (loginOutcome : LoginResult × Nat) : Bool × Nat :=
  if hasCachedToken && creditsOk then (true, 0)
  else (loginOutcome.1.success, loginOutcome.2)

/-- Two overlapping `login` calls: the first enters on an empty ref, the
second enters while the first's promise is still in flight, the body then
resolves and both callers receive its boolean.  Returns both callers'
results and the total number of login network requests; had the second
entry also taken the `startNew` branch, the body (and its requests) would
have run twice. -/
def overlappingLoginsTrace (body : Bool × Nat) : (Bool × Bool) × Nat :=
  match performLoginEntry none with
  | (.awaitExisting, _) => ((false, false), 0)
  | (.startNew, ref1) =>
    match performLoginEntry ref1 with
    | (.startNew, _) => ((body.1, body.1), body.2 + body.2)
    | (.awaitExisting, _) => ((body.1, body.1), body.2)

/-- Two overlapping `performLogin` calls wired to the real `login`
embedding. -/
def twoOverlappingLogins (hasCachedToken creditsOk : Bool)
    (apiKey username password : String) (cfg : NetworkConfig) (onLine : Bool)
    (fetchResult : FetchOutcome) : (Bool × Bool) × Nat :=
  overlappingLoginsTrace
    (performLoginBody hasCachedToken creditsOk
      (login apiKey username password cfg onLine fetchResult))

/-! ## MainScreen.tsx / BatchScreen.tsx — pollForCompletion (claim C3)

The status oracle `check n` is the response of the `n`-th status call; the
`n`-th call happens at elapsed time `n · intervalMs` (each wait between
calls is the configured interval, the calls themselves are instantaneous in
this model).  Each run returns its outcome together with the total number
of status calls issued — after the returned outcome no further call
occurs. -/

inductive PollStatus where
  | CREATED | PENDING | COMPLETED | ERROR | TIMEOUT
deriving DecidableEq

structure PollResponse (δ : Type) where
  status : PollStatus
  data : Option δ
  errors : List String
deriving DecidableEq

/-- `result.errors?.join(', ') || `${type} failed`` (an empty join is falsy
and falls back). -/
def joinedErrors (typeName : String) (errors : List String) : String :=
  let j := String.intercalate ", " errors
  if j = "" then typeName ++ " failed" else j

/-- MainScreen's poller outcome: `completed` resolves with the data,
`errored` is the catch branch (an error status message is shown),
`stalled` is the fall-through with no branch taken — polling simply stops
with neither a resolution nor an error. -/
inductive MainPollOutcome (δ : Type) where
  | completed (d : δ)
  | errored (msg : String)
  | stalled
deriving DecidableEq

/-- MainScreen `pollForCompletion` (MainScreen.tsx:632-676), one `poll`
invocation at tick `n`:
`COMPLETED` with data resolves; `ERROR` throws the joined errors (caught →
error message); `PENDING`/`CREATED` re-schedules after the interval unless
the elapsed time has reached `timeoutMs` (timeout error); any other case
(`TIMEOUT` status, or `COMPLETED` without data) falls through all branches
and stops polling silently. -/
def mainPollAux (check : Nat → PollResponse δ) (intervalMs timeoutMs : Nat)
    (hpos : 0 < intervalMs) (typeName : String) (n : Nat) :
    MainPollOutcome δ × Nat :=
  let r := check n
  match r.status, r.data with
  | .COMPLETED, some d => (.completed d, 1)
  | .COMPLETED, none => (.stalled, 1)
  | .ERROR, _ => (.errored (joinedErrors typeName r.errors), 1)
  | .TIMEOUT, _ => (.stalled, 1)
  | .PENDING, _ =>
    if h : n * intervalMs ≥ timeoutMs then
      (.errored (typeName ++ " timed out after " ++
        toString (timeoutMs / 60000) ++ " minutes"), 1)
    else
      let res := mainPollAux check intervalMs timeoutMs hpos typeName (n + 1)
      (res.1, res.2 + 1)
  | .CREATED, _ =>
    if h : n * intervalMs ≥ timeoutMs then
      (.errored (typeName ++ " timed out after " ++
        toString (timeoutMs / 60000) ++ " minutes"), 1)
    else
      let res := mainPollAux check intervalMs timeoutMs hpos typeName (n + 1)
      (res.1, res.2 + 1)
termination_by timeoutMs / intervalMs + 1 - n
decreasing_by
  · have hle : n ≤ timeoutMs / intervalMs :=
      (Nat.le_div_iff_mul_le hpos).mpr (Nat.le_of_lt (Nat.lt_of_not_le h))
    omega
  · have hle : n ≤ timeoutMs / intervalMs :=
      (Nat.le_div_iff_mul_le hpos).mpr (Nat.le_of_lt (Nat.lt_of_not_le h))
    omega

/-- BatchScreen's poller outcome (a genuine promise): `resolved` with the
whole status response, or `rejected` with an error message. -/
inductive BatchPollOutcome (δ : Type) where
  | resolved (r : PollResponse δ)
  | rejected (msg : String)
deriving DecidableEq

/-- BatchScreen `pollForCompletion` (BatchScreen.tsx:562-610), one `poll`
invocation at tick `n`: the stop flag is checked before the status call;
`COMPLETED` resolves with the response; `ERROR` rejects with the joined
errors; a `TIMEOUT` status or elapsed time ≥ `timeoutMs` rejects with a
timeout message; otherwise the next poll is scheduled after the
interval. -/
def batchPollAux (shouldStop : Nat → Bool) (check : Nat → PollResponse δ)
    (intervalMs timeoutMs : Nat) (hpos : 0 < intervalMs) (typeName : String)
    (n : Nat) : BatchPollOutcome δ × Nat :=
  if shouldStop n then (.rejected "Processing stopped by user", 0)
  else
    let r := check n
    match r.status with
    | .COMPLETED => (.resolved r, 1)
    | .ERROR => (.rejected (joinedErrors typeName r.errors), 1)
    | .TIMEOUT => (.rejected (typeName ++ " timed out"), 1)
    | .PENDING =>
      if h : n * intervalMs ≥ timeoutMs then (.rejected (typeName ++ " timed out"), 1)
      else
        let res := batchPollAux shouldStop check intervalMs timeoutMs hpos typeName (n + 1)
        (res.1, res.2 + 1)
    | .CREATED =>
      if h : n * intervalMs ≥ timeoutMs then (.rejected (typeName ++ " timed out"), 1)
      else
        let res := batchPollAux shouldStop check intervalMs timeoutMs hpos typeName (n + 1)
        (res.1, res.2 + 1)
termination_by timeoutMs / intervalMs + 1 - n
decreasing_by
  · have hle : n ≤ timeoutMs / intervalMs :=
      (Nat.le_div_iff_mul_le hpos).mpr (Nat.le_of_lt (Nat.lt_of_not_le h))
    omega
  · have hle : n ≤ timeoutMs / intervalMs :=
      (Nat.le_div_iff_mul_le hpos).mpr (Nat.le_of_lt (Nat.lt_of_not_le h))
    omega

/-- `(config.pollingIntervalSeconds || 10) * 1000` (absent or 0 → 10 s). -/
def pollingIntervalMs (cfgSeconds : Option Nat) : Nat :=
  (match cfgSeconds with
   | some v => if v = 0 then 10 else v
   | none => 10) * 1000

/-- `(config.pollingTimeoutSeconds || 7200) * 1000`. -/
def pollingTimeoutMs (cfgSeconds : Option Nat) : Nat :=
  (match cfgSeconds with
   | some v => if v = 0 then 7200 else v
   | none => 7200) * 1000

theorem pollingIntervalMs_pos (cfgSeconds : Option Nat) : 0 < pollingIntervalMs cfgSeconds := by
  rcases cfgSeconds with _ | v
  · norm_num [pollingIntervalMs]
  · by_cases h : v = 0 <;> simp only [pollingIntervalMs, h, if_true, if_false] <;> omega

/-- MainScreen `pollForCompletion` from the first poll. -/
def mainPoll (check : Nat → PollResponse δ) (cfgInterval cfgTimeout : Option Nat)
    (typeName : String) : MainPollOutcome δ × Nat :=
  mainPollAux check (pollingIntervalMs cfgInterval) (pollingTimeoutMs cfgTimeout)
    (pollingIntervalMs_pos cfgInterval) typeName 0

/-- BatchScreen `pollForCompletion` from the first poll. -/
def batchPoll (shouldStop : Nat → Bool) (check : Nat → PollResponse δ)
    (cfgInterval cfgTimeout : Option Nat) (typeName : String) :
    BatchPollOutcome δ × Nat :=
  batchPollAux shouldStop check (pollingIntervalMs cfgInterval)
    (pollingTimeoutMs cfgTimeout) (pollingIntervalMs_pos cfgInterval) typeName 0

/-! ## Supporting lemmas for claim C1 -/

theorem lengthGuard_contains (l : List Nat) (x : Nat) :
    (decide (l.length > 0) && l.contains x) = l.contains x := by
  cases l <;> simp

theorem lengthGuard_keywordHit (ks : List String) (msg rt : String) :
    (decide (ks.length > 0) && keywordHit ks msg rt) = keywordHit ks msg rt := by
  cases ks <;> simp [keywordHit]

/-- The classifier's scan loop is the first enabled entry matching the
claim's predicate (the loop's non-emptiness guards on the status-code and
keyword lists are redundant). -/
theorem scanErrorTypes_eq_find (msg rt : String) (status : Nat)
    (l : List (String × ErrorTypeConfig)) :
    scanErrorTypes msg rt status l =
      l.find? (fun nc => nc.2.enabled && definitionMatches nc.2 msg rt status) := by
  induction l with
  | nil => rfl
  | cons hd tl ih =>
    obtain ⟨n, c⟩ := hd
    by_cases he : c.enabled
    · by_cases hs : c.statusCodes.contains status
      · have hmem : status ∈ c.statusCodes := by simpa using hs
        have hlen : 0 < c.statusCodes.length :=
          List.length_pos.mpr (fun hnil => by rw [hnil] at hmem; simp at hmem)
        simp [scanErrorTypes, List.find?, definitionMatches, he, hmem, hlen]
      · have hnmem : status ∉ c.statusCodes := by simpa using hs
        by_cases hk : keywordHit c.keywords msg rt
        · have hlen : 0 < c.keywords.length := by
            rcases hck : c.keywords with _ | ⟨a, b⟩
            · rw [hck] at hk; simp [keywordHit] at hk
            · simp
          simp [scanErrorTypes, List.find?, definitionMatches, he, hnmem, hk, hlen]
        · simp [scanErrorTypes, List.find?, definitionMatches, he, hnmem, hk, ih]
    · simp [scanErrorTypes, List.find?, he, ih]

/-- C1: for a null/undefined error the classifier returns UNKNOWN and not
retryable; otherwise the first enabled definition whose status-code set
contains the error's status or whose keywords match the lower-cased
message/response body determines the result, retryable iff its
`maxRetries > 0`; with no match it returns OFFLINE/retryable when the
connectivity signal reports offline and UNKNOWN/not-retryable otherwise. -/
theorem claim_C1_classifier (cfg : NetworkConfig) (onLine : Bool)
    (err : Option ErrObj) :
    categorizeNetworkError cfg onLine err =
      (match err with
       | none => ⟨.UNKNOWN, getUserMessage cfg "unknown", false⟩
       | some e =>
         match cfg.errorTypes.find? (fun nc => nc.2.enabled &&
             definitionMatches nc.2 (lowerStr (e.message.getD ""))
               (lowerStr (e.responseText.getD "")) e.status) with
         | some (n, c) => createNetworkError cfg n (decide (c.maxRetries > 0))
         | none =>
           if !onLine then createNetworkError cfg "offlineErrors" true
           else ⟨.UNKNOWN, getUserMessage cfg "unknown", false⟩)
    ∧ (createNetworkError cfg "offlineErrors" true).type = .OFFLINE
    ∧ (createNetworkError cfg "offlineErrors" true).isRetryable = true
    ∧ (⟨.UNKNOWN, getUserMessage cfg "unknown", false⟩ : NetworkError).isRetryable = false := by
  refine ⟨?_, rfl, rfl, rfl⟩
  cases err with
  | none => rfl
  | some e => simp only [categorizeNetworkError, scanErrorTypes_eq_find]

/-! ## Supporting lemmas and theorems for claim C2 -/

/-- `getDelayForErrorType` is `applyJitter` applied to the factored-out
pre-jitter delay. -/
theorem getDelay_eq_applyJitter (cfg : NetworkConfig) (et : String) (n : Nat) (r : ℚ) :
    getDelayForErrorType cfg et n r = applyJitter cfg (preJitterDelay cfg et n) r := by
  unfold getDelayForErrorType preJitterDelay
  cases cfg.errorTypes.lookup et with
  | none => rfl
  | some ec => by_cases h : n ≥ ec.delays.length <;> simp [h]

/-- Jitter bounds: with jitter enabled and `0 ≤ r ≤ 1`, the jittered delay
is at least 100 and within ±(delay·jitterPercent/100) of the input up to
the half-millisecond rounding of `Math.round`. -/
theorem applyJitter_bounds (cfg : NetworkConfig) (delay r : ℚ)
    (hj : cfg.jitter = true) (h0 : 0 ≤ r) (h1 : r ≤ 1) (hd : 0 ≤ delay)
    (hjp : 0 ≤ cfg.jitterPercent) :
    100 ≤ applyJitter cfg delay r ∧
    delay - delay * (cfg.jitterPercent / 100) - 1/2 ≤ applyJitter cfg delay r ∧
    applyJitter cfg delay r ≤ max 100 (delay + delay * (cfg.jitterPercent / 100) + 1/2) := by
  have hA : (0:ℚ) ≤ delay * (cfg.jitterPercent / 100) := by
    apply mul_nonneg hd; linarith
  unfold applyJitter
  rw [hj]
  simp only [Bool.not_true, Bool.false_eq_true, if_false]
  set A := delay * (cfg.jitterPercent / 100) with hAdef
  set X := delay + (r * 2 - 1) * A + 1/2 with hX
  have hup : (r * 2 - 1) * A ≤ A := by
    calc (r * 2 - 1) * A ≤ 1 * A := mul_le_mul_of_nonneg_right (by linarith) hA
    _ = A := one_mul A
  have hlo : -A ≤ (r * 2 - 1) * A := by
    calc -A = (-1) * A := by ring
    _ ≤ (r * 2 - 1) * A := mul_le_mul_of_nonneg_right (by linarith) hA
  have hfl : ((⌊X⌋ : ℤ) : ℚ) ≤ X := Int.floor_le X
  have hfu : X - 1 < ((⌊X⌋ : ℤ) : ℚ) := Int.sub_one_lt_floor X
  refine ⟨le_max_left _ _, ?_, ?_⟩
  · refine le_trans ?_ (le_max_right 100 _)
    rw [hX] at hfu
    linarith
  · apply max_le_max (le_refl (100:ℚ))
    rw [hX] at hfl
    linarith

/-- C2 (amended): the delay for `(errorType, attemptNumber)` is
`applyJitter` applied to the pre-jitter delay, which is the configured
array entry when the attempt number is within the array and otherwise
`lastConfiguredDelay · multiplier ^ attemptNumber` — the exponent is the
full attempt number, not `attemptNumber - lastIndex` — capped at the type's
`maxDelay`; with jitter enabled the result is the pre-jitter delay plus a
uniform offset within ±jitterPercent%, rounded to the nearest millisecond
and clamped to a floor of 100 ms, while with jitter disabled the pre-jitter
delay is returned unchanged (no floor). -/
theorem claim_C2_delay (cfg : NetworkConfig) (errorType : String) (n : Nat)
    (r : ℚ) (h0 : 0 ≤ r) (h1 : r ≤ 1)
    (hd : 0 ≤ preJitterDelay cfg errorType n) (hjp : 0 ≤ cfg.jitterPercent) :
    getDelayForErrorType cfg errorType n r
      = applyJitter cfg (preJitterDelay cfg errorType n) r
    ∧ (cfg.jitter = false →
        getDelayForErrorType cfg errorType n r = preJitterDelay cfg errorType n)
    ∧ (cfg.jitter = true →
        100 ≤ getDelayForErrorType cfg errorType n r
        ∧ preJitterDelay cfg errorType n
            - preJitterDelay cfg errorType n * (cfg.jitterPercent / 100) - 1/2
            ≤ getDelayForErrorType cfg errorType n r
        ∧ getDelayForErrorType cfg errorType n r
            ≤ max 100 (preJitterDelay cfg errorType n
                + preJitterDelay cfg errorType n * (cfg.jitterPercent / 100) + 1/2)) := by
  refine ⟨getDelay_eq_applyJitter cfg errorType n r, ?_, ?_⟩
  · intro hj
    rw [getDelay_eq_applyJitter]
    unfold applyJitter
    rw [hj]
    rfl
  · intro hj
    rw [getDelay_eq_applyJitter]
    exact applyJitter_bounds cfg (preJitterDelay cfg errorType n) r hj h0 h1 hd hjp

/-- Concrete rule-table instances exhibiting the divergences of claim C2. -/
def ecT : ErrorTypeConfig := ⟨true, [], [], 3, [100, 200], 1000000000⟩
def ecT3 : ErrorTypeConfig := ⟨true, [], [], 3, [1005], 1000000000⟩
def ecT2 : ErrorTypeConfig := ⟨true, [], [], 3, [50], 1000000000⟩
def cfgC2 : NetworkConfig := ⟨true, 3, 1000, [("t", ecT), ("t3", ecT3)], 2, true, 10, []⟩
def cfgC2nj : NetworkConfig := ⟨true, 3, 1000, [("t2", ecT2)], 2, false, 10, []⟩

/-- C2 counterexample: for the rule `t` (delays `[100, 200]`, multiplier 2,
maxDelay 10⁹, 10% jitter) at attempt 2 with neutral randomness the code
returns 800 = 200·2², while the claim's formula
`lastDelay · multiplier^(attemptNumber - lastIndex)` gives 400, and 800 is
far outside 400 ± 10%.  With jitter disabled the 100 ms floor is not
applied (delay 50 is returned as is), and with jitter enabled rounding can
exceed the exact ±10% band (1005 at r = 1 rounds to 1106 > 1105.5). -/
theorem claim_C2_counterexample :
    getDelayForErrorType cfgC2 "t" 2 (1/2) = 800
    ∧ claimedFallbackDelay cfgC2 "t" 2 = 400
    ∧ ¬((400 : ℚ) - 400 * (10/100) ≤ 800 ∧ (800 : ℚ) ≤ 400 + 400 * (10/100))
    ∧ getDelayForErrorType cfgC2nj "t2" 0 (1/2) = 50 ∧ ¬((100 : ℚ) ≤ 50)
    ∧ getDelayForErrorType cfgC2 "t3" 0 1 = 1106
    ∧ (1005 : ℚ) + 1005 * (10/100) < 1106 := by
  refine ⟨?_, ?_, by norm_num, ?_, by norm_num, ?_, by norm_num⟩
  · norm_num [getDelayForErrorType, applyJitter, cfgC2, ecT, ecT3, List.lookup]
  · norm_num [claimedFallbackDelay, cfgC2, ecT, ecT3, List.lookup]
  · norm_num [getDelayForErrorType, applyJitter, cfgC2nj, ecT2, List.lookup]
  · have ha : (("t3" : String) == "t") = false := by decide
    have hb : (("t3" : String) == "t3") = true := by decide
    norm_num [getDelayForErrorType, applyJitter, cfgC2, ecT, ecT3, List.lookup, ha, hb]

/-- Witness for C2 at the `t` rule, attempt 2, r = 1/2. -/
theorem claim_C2_delay_witness :
    (0 : ℚ) ≤ 1/2 ∧ (1/2 : ℚ) ≤ 1
    ∧ getDelayForErrorType cfgC2 "t" 2 (1/2)
        = applyJitter cfgC2 (preJitterDelay cfgC2 "t" 2) (1/2) :=
  ⟨by norm_num, by norm_num,
    (claim_C2_delay cfgC2 "t" 2 (1/2) (by norm_num) (by norm_num)
      (by norm_num [preJitterDelay, cfgC2, ecT, ecT3, List.lookup])
      (by norm_num [cfgC2])).1⟩

/-! ## Decimal round-trip: `parseInt` inverts `String(n)` -/

theorem digitVal_digitChar (m : Nat) (h : m < 10) :
    digitVal (Nat.digitChar m) = some m := by
  interval_cases m <;> decide

theorem parseNatAux_cons_digit (n : Nat) (h : n < 10) (rest : List Char) (acc : Nat) :
    parseNatAux (Nat.digitChar n :: rest) acc = parseNatAux rest (acc * 10 + n) := by
  simp [parseNatAux, digitVal_digitChar n h]

theorem toDigitsCore_length_le (b : Nat) :
    ∀ fuel n prev, prev.length ≤ (Nat.toDigitsCore b fuel n prev).length := by
  intro fuel
  induction fuel with
  | zero => intro n prev; simp [Nat.toDigitsCore]
  | succ fuel ih =>
    intro n prev
    simp only [Nat.toDigitsCore]
    by_cases h : n / b = 0
    · simp [h]
    · simp only [h, if_false]
      calc prev.length ≤ (Nat.digitChar (n % b) :: prev).length := by simp
      _ ≤ _ := ih (n / b) (Nat.digitChar (n % b) :: prev)

/-- Parsing the digits `toDigitsCore` emits continues into `prev` with the
value of `n` appended below the incoming accumulator. -/
theorem parseNatAux_toDigitsCore :
    ∀ fuel n prev acc, n < fuel →
      ∃ k, parseNatAux (Nat.toDigitsCore 10 fuel n prev) acc
        = parseNatAux prev (acc * 10 ^ k + n) := by
  intro fuel
  induction fuel with
  | zero => intro n prev acc h; omega
  | succ fuel ih =>
    intro n prev acc h
    simp only [Nat.toDigitsCore]
    by_cases h10 : n / 10 = 0
    · have hn10 : n < 10 := by omega
      refine ⟨1, ?_⟩
      rw [if_pos h10, parseNatAux_cons_digit (n % 10) (Nat.mod_lt n (by omega)) prev acc]
      have : n % 10 = n := Nat.mod_eq_of_lt hn10
      rw [this]
      norm_num
    · rw [if_neg h10]
      have hlt : n / 10 < fuel := by
        have h1 : n / 10 < n := Nat.div_lt_self (by omega) (by omega)
        omega
      obtain ⟨k, hk⟩ := ih (n / 10) (Nat.digitChar (n % 10) :: prev) acc hlt
      refine ⟨k + 1, ?_⟩
      rw [hk, parseNatAux_cons_digit (n % 10) (Nat.mod_lt n (by omega)) prev]
      congr 1
      have hdm := Nat.div_add_mod n 10
      have hp : (10:Nat) ^ (k + 1) = 10 ^ k * 10 := pow_succ 10 k
      rw [hp, ← mul_assoc]
      have hx : (acc * 10 ^ k + n / 10) * 10 = acc * 10 ^ k * 10 + (n / 10) * 10 := by ring
      rw [hx]
      omega

/-- `parseInt(String(n), 10) = n`. -/
theorem parseNat_toString (n : Nat) : parseNat (toString n) = some n := by
  have hrepr : toString n = (Nat.toDigits 10 n).asString := rfl
  have hne : (Nat.toDigits 10 n) ≠ [] := by
    intro hempty
    unfold Nat.toDigits Nat.toDigitsCore at hempty
    by_cases h : n / 10 = 0
    · simp [h] at hempty
    · simp only [h, if_false] at hempty
      have := toDigitsCore_length_le 10 n (n / 10) [Nat.digitChar (n % 10)]
      rw [hempty] at this
      simp at this
    
  obtain ⟨k, hk⟩ := parseNatAux_toDigitsCore (n + 1) n [] 0 (by omega)
  have htl : (toString n).toList = Nat.toDigits 10 n := rfl
  unfold parseNat
  rw [htl]
  rcases hd : Nat.toDigits 10 n with _ | ⟨c, cs⟩
  · exact absurd hd hne
  · have hgoal : parseNatAux (Nat.toDigits 10 n) 0 = parseNatAux [] (0 * 10 ^ k + n) := hk
    show parseNatAux (c :: cs) 0 = some n
    rw [← hd, hgoal]
    simp [parseNatAux]

/-! ## Association-store lemmas -/


theorem lookup_filterNe_self {β : Type} (l : List (String × β)) (k : String) :
    List.lookup k (l.filter (fun p => p.1 != k)) = none := by
  induction l with
  | nil => rfl
  | cons hd tl ih =>
    obtain ⟨k0, v0⟩ := hd
    by_cases h : k0 = k
    · have hf : (k0 != k) = false := by simp [h]
      simp only [List.filter, hf]
      exact ih
    · have hf : (k0 != k) = true := by simp [h]
      have hne : (k == k0) = false := by simp [Ne.symm h]
      simp only [List.filter, hf, List.lookup, hne]
      exact ih

theorem lookup_filterNe_other {β : Type} (l : List (String × β)) (k k' : String)
    (h : k' ≠ k) :
    List.lookup k' (l.filter (fun p => p.1 != k)) = List.lookup k' l := by
  induction l with
  | nil => rfl
  | cons hd tl ih =>
    obtain ⟨k0, v0⟩ := hd
    by_cases hk : k0 = k
    · have hf : (k0 != k) = false := by simp [hk]
      have hne : (k' == k0) = false := by simp [hk, h]
      simp only [List.filter, hf, List.lookup, hne]
      exact ih
    · have hf : (k0 != k) = true := by simp [hk]
      simp only [List.filter, hf, List.lookup]
      cases hkk : (k' == k0) with
      | true => simp only [hkk]
      | false => simp only [hkk]; exact ih

theorem getItem_setItem_self (s : Store) (k v : String) :
    getItem (setItem s k v) k = some v := by
  simp [getItem, setItem, List.lookup]

theorem getItem_setItem_other (s : Store) (k k' v : String) (h : k' ≠ k) :
    getItem (setItem s k v) k' = getItem s k' := by
  have hne : (k' == k) = false := by simp [h]
  simp only [getItem, setItem, List.lookup, hne]
  exact lookup_filterNe_other s k k' h

theorem getItem_removeItem_self (s : Store) (k : String) :
    getItem (removeItem s k) k = none :=
  lookup_filterNe_self s k

theorem getItem_removeItem_other (s : Store) (k k' : String) (h : k' ≠ k) :
    getItem (removeItem s k) k' = getItem s k' :=
  lookup_filterNe_other s k k' h

theorem cstoreGet_set_self {V : Type} (s : CStore V) (k : String) (it : CacheItem V) :
    cstoreGet (cstoreSet s k it) k = some it := by
  simp [cstoreGet, cstoreSet, List.lookup]

theorem cstoreGet_remove_self {V : Type} (s : CStore V) (k : String) :
    cstoreGet (cstoreRemove s k) k = none :=
  lookup_filterNe_self s k

/-- After `clear`, a key reads as absent exactly when it carries the
`ai_opensubtitles_` namespace; all other keys are untouched. -/
theorem getItem_clear (s : Store) (k : String) :
    getItem (CacheManager.clear s) k
      = if strStartsWith k "ai_opensubtitles_" then none else getItem s k := by
  induction s with
  | nil =>
    simp only [CacheManager.clear, List.filter, getItem, List.lookup]
    split <;> rfl
  | cons hd tl ih =>
    obtain ⟨k0, v0⟩ := hd
    by_cases hp : strStartsWith k0 "ai_opensubtitles_"
    · have hstep : CacheManager.clear ((k0, v0) :: tl) = CacheManager.clear tl := by
        simp [CacheManager.clear, List.filter, hp]
      rw [hstep, ih]
      by_cases hks : strStartsWith k "ai_opensubtitles_" = true
      · simp only [hks, if_true]
      · rw [if_neg hks, if_neg hks]
        have hk : k ≠ k0 := fun he => hks (by rw [he]; exact hp)
        have hne : (k == k0) = false := by simp [hk]
        simp only [getItem, List.lookup, hne]
    · have hstep : CacheManager.clear ((k0, v0) :: tl) = (k0, v0) :: CacheManager.clear tl := by
        simp [CacheManager.clear, List.filter, hp]
      rw [hstep]
      by_cases hk : k = k0
      · have hpk : ¬(strStartsWith k "ai_opensubtitles_" = true) := by
          rw [hk]; exact hp
        rw [if_neg hpk]
        have heq : (k == k0) = true := by simp [hk]
        simp only [getItem, List.lookup, heq]
      · have hne : (k == k0) = false := by simp [hk]
        have hlhs : getItem ((k0, v0) :: CacheManager.clear tl) k
            = getItem (CacheManager.clear tl) k := by
          simp only [getItem, List.lookup, hne]
        rw [hlhs, ih]
        by_cases hks : strStartsWith k "ai_opensubtitles_" = true
        · simp only [hks, if_true]
        · rw [if_neg hks, if_neg hks]
          simp only [getItem, List.lookup, hne]

/-! ## Claim C6 — cache TTL semantics -/

/-- C6: a `set` immediately followed by `get` returns the value; the stored
entry's absolute expiry is `writeTime + TTL(config at write time)` (default
24 h) — `get`/`isExpired` read only that stored expiry, so later TTL
changes cannot affect it; once the clock passes the expiry, `get` returns
absent and evicts the entry and `isExpired` is true. -/
theorem claim_C6_cache_ttl {V : Type} (s : CStore V) (k : String) (v : V)
    (t : Nat) (cfgHours : Option Nat) :
    CacheManager.get (CacheManager.set s k v t cfgHours) k t
      = (CacheManager.set s k v t cfgHours, some v)
    ∧ cstoreGet (CacheManager.set s k v t cfgHours) ("ai_opensubtitles_" ++ k)
      = some ⟨v, t, t + getCacheDuration cfgHours⟩
    ∧ ∀ t', t + getCacheDuration cfgHours < t' →
        (CacheManager.get (CacheManager.set s k v t cfgHours) k t').2 = none
        ∧ cstoreGet (CacheManager.get (CacheManager.set s k v t cfgHours) k t').1
            ("ai_opensubtitles_" ++ k) = none
        ∧ CacheManager.isExpired (CacheManager.set s k v t cfgHours) k t' = true := by
  have hget : cstoreGet (CacheManager.set s k v t cfgHours) ("ai_opensubtitles_" ++ k)
      = some ⟨v, t, t + getCacheDuration cfgHours⟩ := by
    unfold CacheManager.set
    exact cstoreGet_set_self s ("ai_opensubtitles_" ++ k) _
  refine ⟨?_, hget, ?_⟩
  · unfold CacheManager.get
    simp only [hget]
    rw [if_neg (by omega)]
  · intro t' ht'
    have hgt : t' > t + getCacheDuration cfgHours := ht'
    refine ⟨?_, ?_, ?_⟩
    · unfold CacheManager.get
      simp only [hget]
      rw [if_pos hgt]
    · unfold CacheManager.get
      simp only [hget]
      rw [if_pos hgt]
      exact cstoreGet_remove_self _ _
    · unfold CacheManager.isExpired
      simp only [hget]
      simp [hgt]

/-- Witness for C6: key `x`, value `1`, written at time 0 under the default
24 h TTL, read back at time 0 and at 24 h + 1 ms. -/
theorem claim_C6_cache_ttl_witness :
    (CacheManager.get (CacheManager.set ([] : CStore Nat) "x" 1 0 none) "x" 0).2 = some 1
    ∧ 0 + getCacheDuration none < 86400001
    ∧ (CacheManager.get (CacheManager.set ([] : CStore Nat) "x" 1 0 none) "x" 86400001).2 = none
    ∧ CacheManager.isExpired (CacheManager.set ([] : CStore Nat) "x" 1 0 none) "x" 86400001 = true := by
  have h := claim_C6_cache_ttl ([] : CStore Nat) "x" 1 0 none
  have hlt : 0 + getCacheDuration none < 86400001 := by decide
  have h3 := h.2.2 86400001 hlt
  exact ⟨by rw [h.1], hlt, h3.1, h3.2.2⟩

/-! ## Claim C7 — token validity window -/

/-- C7 (amended): `saveToken` stamps `now + 6 h` (a fixed window independent
of the cache TTL); for a NON-EMPTY token `t`, `getValidToken` returns `t`
while the clock has not passed the stamped expiry and returns absent
afterwards, clearing both token keys as a side effect.  (An empty-string
token is falsy in JS and reads back as absent — see the counterexample.) -/
theorem claim_C7_token (s : Store) (tok : String) (htok : tok ≠ "")
    (t now : Nat) :
    getItem (saveToken s tok t) TOKEN_EXPIRY_KEY
      = some (toString (t + TOKEN_VALIDITY_HOURS * 3600 * 1000))
    ∧ (now ≤ t + TOKEN_VALIDITY_HOURS * 3600 * 1000 →
        getValidToken (saveToken s tok t) now = (saveToken s tok t, some tok))
    ∧ (now > t + TOKEN_VALIDITY_HOURS * 3600 * 1000 →
        (getValidToken (saveToken s tok t) now).2 = none
        ∧ getItem (getValidToken (saveToken s tok t) now).1 TOKEN_KEY = none
        ∧ getItem (getValidToken (saveToken s tok t) now).1 TOKEN_EXPIRY_KEY = none) := by
  have hkeys : TOKEN_KEY ≠ TOKEN_EXPIRY_KEY := by decide
  have hexp : getItem (saveToken s tok t) TOKEN_EXPIRY_KEY
      = some (toString (t + TOKEN_VALIDITY_HOURS * 3600 * 1000)) := by
    unfold saveToken
    exact getItem_setItem_self _ _ _
  have htokget : getItem (saveToken s tok t) TOKEN_KEY = some tok := by
    unfold saveToken
    rw [getItem_setItem_other _ _ _ _ hkeys]
    exact getItem_setItem_self _ _ _
  have hparse : parseNat (toString (t + TOKEN_VALIDITY_HOURS * 3600 * 1000))
      = some (t + TOKEN_VALIDITY_HOURS * 3600 * 1000) := parseNat_toString _
  have hnz : toString (t + TOKEN_VALIDITY_HOURS * 3600 * 1000) ≠ "" := by
    intro he
    rw [he] at hparse
    simp [parseNat] at hparse
  refine ⟨hexp, ?_, ?_⟩
  · intro hle
    unfold getValidToken
    rw [htokget, hexp]
    simp only [Option.getD_some]
    rw [if_neg (by simp [htok, hnz])]
    simp only [hparse]
    rw [if_neg (by omega)]
  · intro hgt
    unfold getValidToken
    rw [htokget, hexp]
    simp only [Option.getD_some]
    rw [if_neg (by simp [htok, hnz])]
    simp only [hparse]
    rw [if_pos hgt]
    refine ⟨rfl, ?_, ?_⟩
    · show getItem (clearToken (saveToken s tok t)) TOKEN_KEY = none
      unfold clearToken
      rw [getItem_removeItem_other _ _ _ hkeys]
      exact getItem_removeItem_self _ _
    · show getItem (clearToken (saveToken s tok t)) TOKEN_EXPIRY_KEY = none
      unfold clearToken
      exact getItem_removeItem_self _ _

/-- C7 counterexample: the claim quantifies over every token `t`, but for
the empty-string token `saveToken("")` followed by an immediate
`getValidToken` returns absent (JS `!token` is true for `""`), not the
token. -/
theorem claim_C7_token_counterexample :
    (getValidToken (saveToken [] "" 0) 0).2 = none
    ∧ (getValidToken (saveToken [] "" 0) 0).2 ≠ some "" := by
  exact ⟨by decide, by decide⟩

/-- Witness for C7 with token `tok`, saved at time 0, checked at 5 h
(inside the window) and at 7 h (outside). -/
theorem claim_C7_token_witness :
    ("tok" : String) ≠ ""
    ∧ (18000000 : Nat) ≤ 0 + TOKEN_VALIDITY_HOURS * 3600 * 1000
    ∧ getValidToken (saveToken [] "tok" 0) 18000000 = (saveToken [] "tok" 0, some "tok")
    ∧ (25200000 : Nat) > 0 + TOKEN_VALIDITY_HOURS * 3600 * 1000
    ∧ (getValidToken (saveToken [] "tok" 0) 25200000).2 = none := by
  have h := claim_C7_token [] "tok" (by decide) 0
  refine ⟨by decide, by decide, ?_, by decide, ?_⟩
  · exact (h 18000000).2.1 (by decide)
  · exact ((h 25200000).2.2 (by decide)).1

/-! ## Claim C10 — clear() and the session/config keys -/

/-- C10 (amended): `CacheManager.clear` removes exactly the keys carrying
the `ai_opensubtitles_` prefix and leaves every other key untouched — but
the Session/Config store's `CONFIG_KEY`, `TOKEN_KEY` and
`TOKEN_EXPIRY_KEY` carry that same prefix, so the persisted config and
auth token are removed by `clear()` as well. -/
theorem claim_C10_clear (s : Store) (k : String) :
    getItem (CacheManager.clear s) k
      = (if strStartsWith k "ai_opensubtitles_" then none else getItem s k)
    ∧ getItem (CacheManager.clear s) CONFIG_KEY = none
    ∧ getItem (CacheManager.clear s) TOKEN_KEY = none
    ∧ getItem (CacheManager.clear s) TOKEN_EXPIRY_KEY = none := by
  refine ⟨getItem_clear s k, ?_, ?_, ?_⟩
  · rw [getItem_clear s CONFIG_KEY, if_pos (by decide)]
  · rw [getItem_clear s TOKEN_KEY, if_pos (by decide)]
  · rw [getItem_clear s TOKEN_EXPIRY_KEY, if_pos (by decide)]

/-- C10 counterexample: a storage state holding the persisted config and a
saved auth token; `clear()` removes all of them (they share the cache
namespace prefix), while the claim says they remain intact.  The unrelated
key survives. -/
theorem claim_C10_clear_counterexample :
    getItem (saveToken [(CONFIG_KEY, "cfgjson"), ("unrelated", "keep")] "tok" 0) CONFIG_KEY
      = some "cfgjson"
    ∧ getItem (saveToken [(CONFIG_KEY, "cfgjson"), ("unrelated", "keep")] "tok" 0) TOKEN_KEY
      = some "tok"
    ∧ getItem (CacheManager.clear
        (saveToken [(CONFIG_KEY, "cfgjson"), ("unrelated", "keep")] "tok" 0)) CONFIG_KEY = none
    ∧ getItem (CacheManager.clear
        (saveToken [(CONFIG_KEY, "cfgjson"), ("unrelated", "keep")] "tok" 0)) TOKEN_KEY = none
    ∧ getItem (CacheManager.clear
        (saveToken [(CONFIG_KEY, "cfgjson"), ("unrelated", "keep")] "tok" 0)) TOKEN_EXPIRY_KEY = none
    ∧ getItem (CacheManager.clear
        (saveToken [(CONFIG_KEY, "cfgjson"), ("unrelated", "keep")] "tok" 0)) "unrelated"
      = some "keep" := by
  decide

/-! ## Claims C8, C9 — login attempts and de-duplication -/

/-- `login` never issues more than one network request, whatever the
credentials and whatever the server does. -/
theorem login_requests_le_one (apiKey username password : String)
    (cfg : NetworkConfig) (onLine : Bool) (f : FetchOutcome) :
    (login apiKey username password cfg onLine f).2 ≤ 1 := by
  unfold login
  split
  · simp
  · split
    · simp
    · cases f with
      | thrown e => simp
      | resp r =>
        by_cases hok : r.ok
        · cases ht : r.token <;> simp [hok, ht]
        · simp [hok]

/-- C8 (amended): `login` performs at most one network request — exactly
one when username, password and API key are all present (and zero when any
is missing, returning the typed failure without a network call); it never
re-attempts, whatever the response or thrown error (including ones the
classifier deems retryable); and whenever it fails, a `success := false`
result carrying an error message is returned. -/
theorem claim_C8_login_single_attempt (apiKey username password : String)
    (cfg : NetworkConfig) (onLine : Bool) (f : FetchOutcome) :
    (login apiKey username password cfg onLine f).2
      = (if username = "" ∨ password = "" ∨ apiKey = "" then 0 else 1)
    ∧ (login apiKey username password cfg onLine f).2 ≤ 1
    ∧ (login apiKey username password cfg onLine f).1.error.isSome
      = !(login apiKey username password cfg onLine f).1.success := by
  refine ⟨?_, login_requests_le_one apiKey username password cfg onLine f, ?_⟩
  · unfold login
    by_cases hu : username = ""
    · simp [hu]
    · by_cases hp : password = ""
      · simp [hu, hp]
      · by_cases hk : apiKey = ""
        · simp [hu, hp, hk]
        · simp only [hu, hp, hk]
          cases f with
          | thrown e => simp [hu, hp, hk]
          | resp r =>
            by_cases hok : r.ok
            · cases ht : r.token <;> simp [hu, hp, hk, hok, ht]
            · simp [hu, hp, hk, hok]
  · unfold login
    split
    · simp
    · split
      · simp
      · cases f with
        | thrown e => simp
        | resp r =>
          by_cases hok : r.ok
          · cases ht : r.token <;> simp [hok, ht]
          · simp [hok]

/-- A trivially successful server interaction and an empty rule table, used
as concrete counterexample inputs. -/
def cfg0 : NetworkConfig := ⟨true, 3, 1000, [], 2, true, 10, []⟩
def fetch0 : FetchOutcome := .resp ⟨true, 200, "OK", "", none, some "tk"⟩

/-- C8 counterexample: invoked with empty credentials, `login` issues zero
network requests (it fails fast before the fetch), not exactly one as the
claim states for every invocation. -/
theorem claim_C8_login_counterexample :
    (login "key" "" "" cfg0 true fetch0).2 = 0
    ∧ (login "key" "" "" cfg0 true fetch0).2 ≠ 1 := by
  exact ⟨by decide, by decide⟩

/-- C9 (amended): for two overlapping `performLogin` calls the second
caller joins the first's in-flight promise, both observe the same boolean,
and at most one login network request is issued — exactly one on the
fresh-login path (no valid cached token revalidated by the credits probe),
and zero when a valid cached token short-circuits authentication. -/
theorem claim_C9_login_dedup (hasCachedToken creditsOk : Bool)
    (apiKey username password : String) (cfg : NetworkConfig) (onLine : Bool)
    (f : FetchOutcome) :
    (twoOverlappingLogins hasCachedToken creditsOk apiKey username password cfg onLine f).1.1
      = (twoOverlappingLogins hasCachedToken creditsOk apiKey username password cfg onLine f).1.2
    ∧ (twoOverlappingLogins hasCachedToken creditsOk apiKey username password cfg onLine f).2 ≤ 1
    ∧ (twoOverlappingLogins hasCachedToken creditsOk apiKey username password cfg onLine f).2
      = (if hasCachedToken && creditsOk then 0
         else (login apiKey username password cfg onLine f).2) := by
  have hle := login_requests_le_one apiKey username password cfg onLine f
  unfold twoOverlappingLogins overlappingLoginsTrace performLoginEntry performLoginBody
  by_cases hcc : (hasCachedToken && creditsOk) = true
  · simp [hcc]
  · simp only [Bool.not_eq_true] at hcc
    simp [hcc, hle]

/-- C9 counterexample: with a valid cached token (credits probe succeeds),
two overlapping logins perform zero login network requests — the claim's
"exactly one underlying network call" fails on the cached-token path. -/
theorem claim_C9_login_dedup_counterexample :
    (twoOverlappingLogins true true "key" "u" "p" cfg0 true fetch0).2 = 0
    ∧ (twoOverlappingLogins true true "key" "u" "p" cfg0 true fetch0).2 ≠ 1 := by
  exact ⟨by decide, by decide⟩

/-! ## Claim C3 — job poller terminal behaviour -/

/-- C3 (code divergence on the MainScreen poller): at the default
configuration (10 s interval, 7200 s timeout),
(1) fed a status function that returns `TIMEOUT` on the first check, the
MainScreen poller stops after that single call with neither a resolution
nor a rejection — no branch of its status dispatch handles `TIMEOUT` —
while (2) the BatchScreen poller rejects with a timeout error as the claim
states; (3)–(4) fed `PENDING` twice then `COMPLETED`, both pollers resolve
with the completion data after exactly 3 status calls; (5) on `ERROR` the
joined error messages surface; (6)–(7) with an always-`PENDING` status
function and a 15 s timeout, both pollers reject with a timeout error after
3 calls (elapsed 20 s ≥ 15 s) and issue no further status calls. -/
theorem claim_C3_poller :
    mainPoll (fun _ => (⟨.TIMEOUT, none, []⟩ : PollResponse Nat)) none none "transcription"
      = (.stalled, 1)
    ∧ batchPoll (fun _ => false) (fun _ => (⟨.TIMEOUT, none, []⟩ : PollResponse Nat))
        none none "transcription"
      = (.rejected "transcription timed out", 1)
    ∧ mainPoll
        (fun n => if n < 2 then (⟨.PENDING, none, []⟩ : PollResponse Nat)
                  else ⟨.COMPLETED, some 42, []⟩) none none "transcription"
      = (.completed 42, 3)
    ∧ batchPoll (fun _ => false)
        (fun n => if n < 2 then (⟨.PENDING, none, []⟩ : PollResponse Nat)
                  else ⟨.COMPLETED, some 42, []⟩) none none "transcription"
      = (.resolved ⟨.COMPLETED, some 42, []⟩, 3)
    ∧ mainPoll (fun _ => (⟨.ERROR, none, ["boom", "bam"]⟩ : PollResponse Nat))
        none none "transcription"
      = (.errored "boom, bam", 1)
    ∧ mainPoll (fun _ => (⟨.PENDING, none, []⟩ : PollResponse Nat)) none (some 15) "transcription"
      = (.errored "transcription timed out after 0 minutes", 3)
    ∧ batchPoll (fun _ => false) (fun _ => (⟨.PENDING, none, []⟩ : PollResponse Nat))
        none (some 15) "transcription"
      = (.rejected "transcription timed out", 3) := by
  refine ⟨?_, ?_, ?_, ?_, ?_, ?_, ?_⟩
  · simp [mainPoll, mainPollAux, pollingIntervalMs, pollingTimeoutMs]
  · simp [batchPoll, batchPollAux, pollingIntervalMs, pollingTimeoutMs]
  · simp [mainPoll, mainPollAux, pollingIntervalMs, pollingTimeoutMs]
  · simp [batchPoll, batchPollAux, pollingIntervalMs, pollingTimeoutMs]
  · simp only [mainPoll, mainPollAux, pollingIntervalMs, pollingTimeoutMs]
    decide
  · simp [mainPoll, mainPollAux, pollingIntervalMs, pollingTimeoutMs]
    decide
  · simp [batchPoll, batchPollAux, pollingIntervalMs, pollingTimeoutMs]

/-! ## Claim C4 — consolidation completeness machinery -/

/-- Every variant of every accumulated language canonicalises to its
language's id. -/
def IdsOk (acc : List ConsolidatedLanguage) : Prop :=
  ∀ c ∈ acc, ∀ v ∈ c.variants, consolidatedIdOf v.code = c.id

theorem vcount_nil (code api : String) : vcount [] code api = 0 := rfl

theorem vcount_cons (c : ConsolidatedLanguage) (cs : List ConsolidatedLanguage)
    (code api : String) :
    vcount (c :: cs) code api = vcountOne c code api + vcount cs code api := by
  simp [vcount]

theorem vcount_append (l1 l2 : List ConsolidatedLanguage) (code api : String) :
    vcount (l1 ++ l2) code api = vcount l1 code api + vcount l2 code api := by
  simp [vcount]

theorem vcountOne_pos_iff_any (c : ConsolidatedLanguage) (code api : String) :
    0 < vcountOne c code api
      ↔ c.variants.any (fun v => v.code == code && v.api == api) = true := by
  unfold vcountOne
  constructor
  · intro h
    obtain ⟨x, hx⟩ := List.exists_mem_of_length_pos h
    obtain ⟨hxl, hxp⟩ := List.mem_filter.mp hx
    exact List.any_eq_true.mpr ⟨x, hxl, hxp⟩
  · intro h
    obtain ⟨x, hxl, hxp⟩ := List.any_eq_true.mp h
    exact List.length_pos.mpr (List.ne_nil_of_mem (List.mem_filter.mpr ⟨hxl, hxp⟩))

theorem vcountOne_eq_zero_of_ne (c : ConsolidatedLanguage) (code api : String)
    (hIdOk : ∀ v ∈ c.variants, consolidatedIdOf v.code = c.id)
    (hne : c.id ≠ consolidatedIdOf code) : vcountOne c code api = 0 := by
  unfold vcountOne
  rw [List.length_eq_zero, List.filter_eq_nil_iff]
  intro v hv hp
  simp only [Bool.and_eq_true, beq_iff_eq] at hp
  exact hne (by rw [← hIdOk v hv, hp.1])

theorem vcount_eq_zero_of_all (cs : List ConsolidatedLanguage) (code api : String)
    (h : ∀ c ∈ cs, vcountOne c code api = 0) : vcount cs code api = 0 := by
  induction cs with
  | nil => rfl
  | cons c cs ih =>
    rw [vcount_cons, h c (by simp), ih (fun c' hc' => h c' (by simp [hc']))]

theorem addVariantIfNew_id (l : LanguageInfo) (api : String) (c : ConsolidatedLanguage) :
    (addVariantIfNew l api c).id = c.id := by
  unfold addVariantIfNew
  split <;> rfl

theorem vcountOne_addVariantIfNew (l : LanguageInfo) (api : String)
    (c : ConsolidatedLanguage) (code api' : String) :
    vcountOne (addVariantIfNew l api c) code api'
      = max (vcountOne c code api')
          (if code = l.language_code ∧ api' = api then 1 else 0) := by
  unfold addVariantIfNew
  by_cases hpair : code = l.language_code ∧ api' = api
  · obtain ⟨h1, h2⟩ := hpair
    by_cases hany : (c.variants.any
        (fun v => v.code == l.language_code && v.api == api)) = true
    · rw [if_pos hany, if_pos ⟨h1, h2⟩]
      have hpos : 0 < vcountOne c code api' := by
        rw [h1, h2]
        exact (vcountOne_pos_iff_any c l.language_code api).mpr hany
      omega
    · rw [if_neg hany, if_pos ⟨h1, h2⟩]
      have hzero : vcountOne c code api' = 0 := by
        rw [h1, h2]
        by_contra hny
        exact hany ((vcountOne_pos_iff_any _ _ _).mp (by omega))
      show ((c.variants ++ [mkVariant l api]).filter
          (fun v => v.code == code && v.api == api')).length = _
      rw [List.filter_append]
      have hvp : ([mkVariant l api].filter
          (fun v => v.code == code && v.api == api')) = [mkVariant l api] := by
        rw [h1, h2]
        simp [mkVariant]
      rw [hvp]
      unfold vcountOne at hzero ⊢
      rw [List.length_append, hzero]
      simp
  · rw [if_neg hpair]
    by_cases hany : (c.variants.any
        (fun v => v.code == l.language_code && v.api == api)) = true
    · rw [if_pos hany]
      simp
    · rw [if_neg hany]
      show ((c.variants ++ [mkVariant l api]).filter
          (fun v => v.code == code && v.api == api')).length = _
      rw [List.filter_append]
      have hvp : ([mkVariant l api].filter
          (fun v => v.code == code && v.api == api')) = [] := by
        have hb : ((l.language_code == code) && (api == api')) = false := by
          by_cases hc : l.language_code = code
          · have ha : ¬(api = api') := fun hae => hpair ⟨hc.symm, hae.symm⟩
            simp [ha]
          · simp [hc]
        simp only [List.filter, mkVariant]
        simp [hb]
      rw [hvp]
      unfold vcountOne
      rw [List.length_append]
      simp

theorem map_id_updateById (cid : String) (l : List ConsolidatedLanguage)
    (lng : LanguageInfo) (api : String) :
    (updateById cid (addVariantIfNew lng api) l).map (·.id) = l.map (·.id) := by
  induction l with
  | nil => rfl
  | cons c cs ih =>
    unfold updateById
    by_cases hc : (c.id == cid) = true
    · simp [hc, addVariantIfNew_id]
    · simp [hc, ih]

theorem mem_updateById (cid : String) (f : ConsolidatedLanguage → ConsolidatedLanguage)
    (l : List ConsolidatedLanguage) (x : ConsolidatedLanguage)
    (hx : x ∈ updateById cid f l) :
    x ∈ l ∨ ∃ c ∈ l, (c.id == cid) = true ∧ x = f c := by
  induction l with
  | nil => simp [updateById] at hx
  | cons c cs ih =>
    unfold updateById at hx
    by_cases hc : (c.id == cid) = true
    · rw [if_pos hc] at hx
      rcases List.mem_cons.mp hx with h | h
      · exact Or.inr ⟨c, by simp, hc, h⟩
      · exact Or.inl (List.mem_cons.mpr (Or.inr h))
    · rw [if_neg hc] at hx
      rcases List.mem_cons.mp hx with h | h
      · exact Or.inl (List.mem_cons.mpr (Or.inl h))
      · rcases ih h with h' | ⟨c', hc', hcid, hxf⟩
        · exact Or.inl (List.mem_cons.mpr (Or.inr h'))
        · exact Or.inr ⟨c', List.mem_cons.mpr (Or.inr hc'), hcid, hxf⟩

theorem vcount_updateById (lng : LanguageInfo) (api code api' : String)
    (l : List ConsolidatedLanguage)
    (hIdOk : IdsOk l) (hnd : (l.map (·.id)).Nodup)
    (hmem : (l.any (fun c => c.id == consolidatedIdOf lng.language_code)) = true) :
    vcount (updateById (consolidatedIdOf lng.language_code) (addVariantIfNew lng api) l)
        code api'
      = max (vcount l code api')
          (if code = lng.language_code ∧ api' = api then 1 else 0) := by
  induction l with
  | nil => simp at hmem
  | cons c cs ih =>
    unfold updateById
    by_cases hc : (c.id == consolidatedIdOf lng.language_code) = true
    · rw [if_pos hc]
      rw [vcount_cons, vcount_cons, vcountOne_addVariantIfNew]
      by_cases hpair : code = lng.language_code ∧ api' = api
      · have hcs0 : vcount cs code api' = 0 := by
          apply vcount_eq_zero_of_all
          intro c' hc'
          apply vcountOne_eq_zero_of_ne c' code api' (hIdOk c' (by simp [hc']))
          have hcid : c.id = consolidatedIdOf lng.language_code := by
            simpa using hc
          have hnotin : c.id ∉ cs.map (·.id) := by
            rcases List.nodup_cons.mp hnd with ⟨hni, _⟩
            exact hni
          intro heq
          apply hnotin
          have hceq : c.id = c'.id := by rw [hcid, heq, hpair.1]
          rw [hceq]
          exact List.mem_map.mpr ⟨c', hc', rfl⟩
        rw [hcs0, if_pos hpair]
        omega
      · rw [if_neg hpair]
        omega
    · rw [if_neg hc]
      rw [vcount_cons, vcount_cons]
      have hmem' : (cs.any (fun c => c.id == consolidatedIdOf lng.language_code)) = true := by
        rcases List.any_eq_true.mp hmem with ⟨x, hx, hxp⟩
        rcases List.mem_cons.mp hx with h | h
        · exact absurd (h ▸ hxp) hc
        · exact List.any_eq_true.mpr ⟨x, h, hxp⟩
      have hIdOk' : IdsOk cs := fun c' hc' => hIdOk c' (by simp [hc'])
      have hnd' : (cs.map (·.id)).Nodup := (List.nodup_cons.mp hnd).2
      rw [ih hIdOk' hnd' hmem']
      by_cases hpair : code = lng.language_code ∧ api' = api
      · have hc0 : vcountOne c code api' = 0 := by
          apply vcountOne_eq_zero_of_ne c code api' (hIdOk c (by simp))
          rw [hpair.1]
          intro heq
          exact hc (by simp [heq])
        rw [hc0, if_pos hpair]
        omega
      · rw [if_neg hpair]
        omega

theorem vcountOne_single (lng : LanguageInfo) (api id dn code api' : String) :
    vcountOne ⟨id, dn, [mkVariant lng api]⟩ code api'
      = if code = lng.language_code ∧ api' = api then 1 else 0 := by
  unfold vcountOne mkVariant
  by_cases hpair : code = lng.language_code ∧ api' = api
  · obtain ⟨h1, h2⟩ := hpair
    rw [if_pos ⟨h1, h2⟩]
    simp [h1, h2]
  · rw [if_neg hpair]
    have hb : ((lng.language_code == code) && (api == api')) = false := by
      by_cases hc : lng.language_code = code
      · have ha : ¬api = api' := fun hae => hpair ⟨hc.symm, hae.symm⟩
        simp [ha]
      · simp [hc]
    simp [List.filter, hb]

theorem vcount_processLang (acc : List ConsolidatedLanguage) (lng : LanguageInfo)
    (api code api' : String) (hIdOk : IdsOk acc) (hnd : (acc.map (·.id)).Nodup) :
    vcount (processLang acc api lng) code api'
      = max (vcount acc code api')
          (if code = lng.language_code ∧ api' = api then 1 else 0) := by
  unfold processLang
  by_cases hany : (acc.any (fun c => c.id == consolidatedIdOf lng.language_code)) = true
  · rw [if_pos hany]
    exact vcount_updateById lng api code api' acc hIdOk hnd hany
  · rw [if_neg hany]
    rw [vcount_append, vcount_cons, vcount_nil, vcountOne_single]
    by_cases hpair : code = lng.language_code ∧ api' = api
    · have hacc0 : vcount acc code api' = 0 := by
        apply vcount_eq_zero_of_all
        intro c hcmem
        apply vcountOne_eq_zero_of_ne c code api' (hIdOk c hcmem)
        rw [hpair.1]
        intro heq
        exact hany (List.any_eq_true.mpr ⟨c, hcmem, by simp [heq]⟩)
      rw [hacc0, if_pos hpair]
      simp
    · rw [if_neg hpair]
      simp

theorem idsOk_processLang (acc : List ConsolidatedLanguage) (lng : LanguageInfo)
    (api : String) (h : IdsOk acc) : IdsOk (processLang acc api lng) := by
  unfold processLang
  by_cases hany : (acc.any (fun c => c.id == consolidatedIdOf lng.language_code)) = true
  · rw [if_pos hany]
    intro x hx v hv
    rcases mem_updateById _ _ _ _ hx with hxm | ⟨c, hcm, hcid, hxf⟩
    · exact h x hxm v hv
    · subst hxf
      rw [addVariantIfNew_id]
      unfold addVariantIfNew at hv
      by_cases hany2 : (c.variants.any
          (fun v => v.code == lng.language_code && v.api == api)) = true
      · rw [if_pos hany2] at hv
        exact h c hcm v hv
      · rw [if_neg hany2] at hv
        rcases List.mem_append.mp hv with hvo | hvn
        · exact h c hcm v hvo
        · have hveq : v = mkVariant lng api := by simpa using hvn
          rw [hveq]
          show consolidatedIdOf lng.language_code = c.id
          exact (beq_iff_eq.mp hcid).symm
  · rw [if_neg hany]
    intro x hx v hv
    rcases List.mem_append.mp hx with hxo | hxn
    · exact h x hxo v hv
    · have hxeq : x = ⟨consolidatedIdOf lng.language_code,
          displayNameFor (consolidatedIdOf lng.language_code) lng.language_name,
          [mkVariant lng api]⟩ := by simpa using hxn
      subst hxeq
      have hveq : v = mkVariant lng api := by simpa using hv
      rw [hveq]
      rfl

theorem nodup_processLang (acc : List ConsolidatedLanguage) (lng : LanguageInfo)
    (api : String) (hnd : (acc.map (·.id)).Nodup) :
    ((processLang acc api lng).map (·.id)).Nodup := by
  unfold processLang
  by_cases hany : (acc.any (fun c => c.id == consolidatedIdOf lng.language_code)) = true
  · rw [if_pos hany, map_id_updateById]
    exact hnd
  · rw [if_neg hany, List.map_append]
    have hnotin : consolidatedIdOf lng.language_code ∉ acc.map (·.id) := by
      intro hmem
      rcases List.mem_map.mp hmem with ⟨c, hcm, hcid⟩
      exact hany (List.any_eq_true.mpr ⟨c, hcm, by simp [hcid]⟩)
    simp [List.nodup_append, hnd, hnotin]

theorem invariants_foldLangs (api : String) (langs : List LanguageInfo) :
    ∀ acc : List ConsolidatedLanguage, IdsOk acc → (acc.map (·.id)).Nodup →
      IdsOk (langs.foldl (fun a l => processLang a api l) acc)
      ∧ ((langs.foldl (fun a l => processLang a api l) acc).map (·.id)).Nodup := by
  induction langs with
  | nil => exact fun acc h1 h2 => ⟨h1, h2⟩
  | cons l ls ih =>
    intro acc h1 h2
    rw [List.foldl_cons]
    exact ih (processLang acc api l) (idsOk_processLang acc l api h1)
      (nodup_processLang acc l api h2)

theorem vcount_foldLangs (api : String) (langs : List LanguageInfo)
    (code api' : String) :
    ∀ acc : List ConsolidatedLanguage, IdsOk acc → (acc.map (·.id)).Nodup →
      vcount (langs.foldl (fun a l => processLang a api l) acc) code api'
        = max (vcount acc code api')
            (if (∃ l ∈ langs, code = l.language_code) ∧ api' = api then 1 else 0) := by
  induction langs with
  | nil =>
    intro acc _ _
    simp
  | cons l ls ih =>
    intro acc h1 h2
    rw [List.foldl_cons,
      ih (processLang acc api l) (idsOk_processLang acc l api h1)
        (nodup_processLang acc l api h2),
      vcount_processLang acc l api code api' h1 h2]
    by_cases hp1 : code = l.language_code ∧ api' = api
    · by_cases hp2 : (∃ l' ∈ ls, code = l'.language_code) ∧ api' = api
      · rw [if_pos hp1, if_pos hp2,
          if_pos (⟨⟨l, List.mem_cons_self l ls, hp1.1⟩, hp1.2⟩ :
            (∃ l' ∈ l :: ls, code = l'.language_code) ∧ api' = api)]
        omega
      · rw [if_pos hp1, if_neg hp2,
          if_pos (⟨⟨l, List.mem_cons_self l ls, hp1.1⟩, hp1.2⟩ :
            (∃ l' ∈ l :: ls, code = l'.language_code) ∧ api' = api)]
        omega
    · by_cases hp2 : (∃ l' ∈ ls, code = l'.language_code) ∧ api' = api
      · obtain ⟨⟨l', hl', he⟩, ha⟩ := hp2
        rw [if_neg hp1, if_pos (⟨⟨l', hl', he⟩, ha⟩ :
            (∃ l' ∈ ls, code = l'.language_code) ∧ api' = api),
          if_pos (⟨⟨l', List.mem_cons_of_mem l hl', he⟩, ha⟩ :
            (∃ l' ∈ l :: ls, code = l'.language_code) ∧ api' = api)]
        omega
      · rw [if_neg hp1, if_neg hp2, if_neg ?_]
        · omega
        · rintro ⟨⟨l', hl', he⟩, ha⟩
          rcases List.mem_cons.mp hl' with h | h
          · exact hp1 ⟨h ▸ he, ha⟩
          · exact hp2 ⟨⟨l', h, he⟩, ha⟩

theorem invariants_foldInput (input : List (String × List LanguageInfo)) :
    ∀ acc : List ConsolidatedLanguage, IdsOk acc → (acc.map (·.id)).Nodup →
      IdsOk (input.foldl (fun a p => p.2.foldl (fun a l => processLang a p.1 l) a) acc)
      ∧ ((input.foldl (fun a p => p.2.foldl (fun a l => processLang a p.1 l) a) acc).map
          (·.id)).Nodup := by
  induction input with
  | nil => exact fun acc h1 h2 => ⟨h1, h2⟩
  | cons p ps ih =>
    intro acc h1 h2
    rw [List.foldl_cons]
    obtain ⟨h1', h2'⟩ := invariants_foldLangs p.1 p.2 acc h1 h2
    exact ih _ h1' h2'

theorem vcount_foldInput (input : List (String × List LanguageInfo))
    (code api' : String) :
    ∀ acc : List ConsolidatedLanguage, IdsOk acc → (acc.map (·.id)).Nodup →
      vcount (input.foldl (fun a p => p.2.foldl (fun a l => processLang a p.1 l) a) acc)
          code api'
        = max (vcount acc code api')
            (if ∃ p ∈ input, api' = p.1 ∧ ∃ l ∈ p.2, code = l.language_code
             then 1 else 0) := by
  induction input with
  | nil =>
    intro acc _ _
    simp
  | cons p ps ih =>
    intro acc h1 h2
    rw [List.foldl_cons]
    obtain ⟨h1', h2'⟩ := invariants_foldLangs p.1 p.2 acc h1 h2
    rw [ih _ h1' h2', vcount_foldLangs p.1 p.2 code api' acc h1 h2]
    by_cases hp1 : (∃ l ∈ p.2, code = l.language_code) ∧ api' = p.1
    · by_cases hp2 : ∃ q ∈ ps, api' = q.1 ∧ ∃ l ∈ q.2, code = l.language_code
      · rw [if_pos hp1, if_pos hp2,
          if_pos (⟨p, List.mem_cons_self p ps, hp1.2, hp1.1⟩ :
            ∃ q ∈ p :: ps, api' = q.1 ∧ ∃ l ∈ q.2, code = l.language_code)]
        omega
      · rw [if_pos hp1, if_neg hp2,
          if_pos (⟨p, List.mem_cons_self p ps, hp1.2, hp1.1⟩ :
            ∃ q ∈ p :: ps, api' = q.1 ∧ ∃ l ∈ q.2, code = l.language_code)]
        omega
    · by_cases hp2 : ∃ q ∈ ps, api' = q.1 ∧ ∃ l ∈ q.2, code = l.language_code
      · obtain ⟨q, hq, hq1, hq2⟩ := hp2
        rw [if_neg hp1, if_pos (⟨q, hq, hq1, hq2⟩ :
            ∃ q ∈ ps, api' = q.1 ∧ ∃ l ∈ q.2, code = l.language_code),
          if_pos (⟨q, List.mem_cons_of_mem p hq, hq1, hq2⟩ :
            ∃ q ∈ p :: ps, api' = q.1 ∧ ∃ l ∈ q.2, code = l.language_code)]
        omega
      · rw [if_neg hp1, if_neg hp2, if_neg ?_]
        · omega
        · rintro ⟨q, hq, hq1, hq2⟩
          rcases List.mem_cons.mp hq with h | h
          · exact hp1 ⟨by rw [h] at hq2; exact hq2, by rw [h] at hq1; exact hq1⟩
          · exact hp2 ⟨q, h, hq1, hq2⟩

theorem insertR_perm (le : α → α → Bool) (x : α) (l : List α) :
    (insertR le x l).Perm (x :: l) := by
  induction l with
  | nil => exact List.Perm.refl _
  | cons y ys ih =>
    unfold insertR
    by_cases h : le y x = true
    · rw [if_pos h]
      exact (List.Perm.cons y ih).trans (List.Perm.swap x y ys)
    · rw [if_neg h]

theorem jsSortBy_perm_aux (le : α → α → Bool) :
    ∀ (l acc : List α), (l.foldl (fun a x => insertR le x a) acc).Perm (acc ++ l) := by
  intro l
  induction l with
  | nil => intro acc; simp
  | cons x xs ih =>
    intro acc
    rw [List.foldl_cons]
    exact (ih (insertR le x acc)).trans
      (((insertR_perm le x acc).append_right xs).trans List.perm_middle.symm)

theorem jsSortBy_perm (le : α → α → Bool) (l : List α) : (jsSortBy le l).Perm l := by
  simpa [jsSortBy] using jsSortBy_perm_aux le l []

theorem vcount_perm (l1 l2 : List ConsolidatedLanguage) (h : l1.Perm l2)
    (code api : String) : vcount l1 code api = vcount l2 code api :=
  (h.map (fun c => vcountOne c code api)).sum_eq

theorem pairSupplied_iff (input : List (String × List LanguageInfo))
    (code api : String) :
    pairSupplied input code api = true
      ↔ ∃ p ∈ input, api = p.1 ∧ ∃ l ∈ p.2, code = l.language_code := by
  unfold pairSupplied
  rw [List.any_eq_true]
  constructor
  · rintro ⟨p, hp, hcond⟩
    simp only [Bool.and_eq_true, beq_iff_eq, List.any_eq_true] at hcond
    obtain ⟨h1, l, hl, he⟩ := hcond
    exact ⟨p, hp, h1.symm, l, hl, he.symm⟩
  · rintro ⟨p, hp, h1, l, hl, he⟩
    refine ⟨p, hp, ?_⟩
    simp only [Bool.and_eq_true, beq_iff_eq, List.any_eq_true]
    exact ⟨h1.symm, l, hl, he.symm⟩

/-- C4: every `(code, providerId)` pair supplied by the input appears in
exactly one variant entry across the whole consolidated output (exact
duplicate pairs are deduplicated to one variant, a pair never supplied
appears zero times); each output language's `id` is the canonicalisation
table's image of each of its variants' codes (falling back to the raw code
when unmapped); and consolidation is a pure function, so running it twice
on the same input yields structurally identical output. -/
theorem claim_C4_consolidation (input : List (String × List LanguageInfo))
    (code api : String) :
    vcount (consolidateLanguages input) code api
      = (if pairSupplied input code api = true then 1 else 0)
    ∧ (∀ c ∈ consolidateLanguages input, ∀ v ∈ c.variants,
        consolidatedIdOf v.code = c.id)
    ∧ consolidateLanguages input = consolidateLanguages input := by
  have hIdOk0 : IdsOk ([] : List ConsolidatedLanguage) := by
    intro c hc
    simp at hc
  have hnd0 : ((([] : List ConsolidatedLanguage)).map (·.id)).Nodup := by simp
  have hperm : (consolidateLanguages input).Perm
      (input.foldl (fun a p => p.2.foldl (fun a l => processLang a p.1 l) a) []) := by
    unfold consolidateLanguages
    exact jsSortBy_perm _ _
  refine ⟨?_, ?_, rfl⟩
  · rw [vcount_perm _ _ hperm code api,
      vcount_foldInput input code api [] hIdOk0 hnd0]
    by_cases hps : pairSupplied input code api = true
    · rw [if_pos hps, if_pos ((pairSupplied_iff input code api).mp hps)]
      simp [vcount_nil]
    · rw [if_neg hps,
        if_neg (fun hex => hps ((pairSupplied_iff input code api).mpr hex))]
      simp [vcount_nil]
  · intro c hc v hv
    exact (invariants_foldInput input [] hIdOk0 hnd0).1 c (hperm.mem_iff.mp hc) v hv

/-- Witness for C4: a provider supplying `de` and `de-DE` (and `de` twice,
exercising deduplication); the pair (`de`, `api1`) lands in exactly one
variant, and the never-supplied pair (`fr`, `api1`) in none. -/
theorem claim_C4_consolidation_witness :
    vcount (consolidateLanguages
        [("api1", [⟨"de", "German"⟩, ⟨"de", "German"⟩, ⟨"de-DE", "German"⟩])]) "de" "api1" = 1
    ∧ vcount (consolidateLanguages
        [("api1", [⟨"de", "German"⟩, ⟨"de", "German"⟩, ⟨"de-DE", "German"⟩])]) "fr" "api1" = 0 := by
  constructor
  · rw [(claim_C4_consolidation
      [("api1", [⟨"de", "German"⟩, ⟨"de", "German"⟩, ⟨"de-DE", "German"⟩])] "de" "api1").1]
    decide
  · rw [(claim_C4_consolidation
      [("api1", [⟨"de", "German"⟩, ⟨"de", "German"⟩, ⟨"de-DE", "German"⟩])] "fr" "api1").1]
    decide

/-! ## Claim C5 — region merge vs script split -/

/-- Every variant of every consolidated output language canonicalises to
its language's id. -/
theorem idsOk_consolidateLanguages (input : List (String × List LanguageInfo)) :
    IdsOk (consolidateLanguages input) := by
  have hIdOk0 : IdsOk ([] : List ConsolidatedLanguage) := by
    intro c hc
    simp at hc
  have hnd0 : ((([] : List ConsolidatedLanguage)).map (·.id)).Nodup := by simp
  have hperm : (consolidateLanguages input).Perm
      (input.foldl (fun a p => p.2.foldl (fun a l => processLang a p.1 l) a) []) := by
    unfold consolidateLanguages
    exact jsSortBy_perm _ _
  intro c hc v hv
  exact (invariants_foldInput input [] hIdOk0 hnd0).1 c (hperm.mem_iff.mp hc) v hv

/-- The consolidated output never holds two entries with the same id. -/
theorem nodup_id_consolidateLanguages (input : List (String × List LanguageInfo)) :
    ((consolidateLanguages input).map (·.id)).Nodup := by
  have hIdOk0 : IdsOk ([] : List ConsolidatedLanguage) := by
    intro c hc
    simp at hc
  have hnd0 : ((([] : List ConsolidatedLanguage)).map (·.id)).Nodup := by simp
  have hperm : (consolidateLanguages input).Perm
      (input.foldl (fun a p => p.2.foldl (fun a l => processLang a p.1 l) a) []) := by
    unfold consolidateLanguages
    exact jsSortBy_perm _ _
  exact ((hperm.map (·.id)).nodup_iff).mpr (invariants_foldInput input [] hIdOk0 hnd0).2

/-- C5 (amended): for EVERY input, a variant whose code is `en`, `en-US`
or `en-GB` always lies in a consolidated language whose id is `english`,
and output ids are unique (two output entries with equal ids are the same
entry), so all such region variants share one single consolidated entry;
a `zh-CN` variant always lies in an entry with id `chinese-simplified`
and a `zh-TW` variant in one with id `chinese-traditional` — two distinct
ids, hence never merged into one entry.  On the spec's P8 inputs exactly:
`en` + `en-US` + `en-GB` give the single `english` entry with those 3
variants, and `zh-CN` + `zh-TW` give the two distinct Chinese entries. -/
theorem claim_C5_region_script (input : List (String × List LanguageInfo)) :
    (∀ c ∈ consolidateLanguages input, ∀ v ∈ c.variants,
        (v.code = "en" ∨ v.code = "en-US" ∨ v.code = "en-GB") → c.id = "english")
    ∧ (∀ c1 ∈ consolidateLanguages input, ∀ c2 ∈ consolidateLanguages input,
        c1.id = c2.id → c1 = c2)
    ∧ (∀ c ∈ consolidateLanguages input, ∀ v ∈ c.variants,
        (v.code = "zh-CN" → c.id = "chinese-simplified")
        ∧ (v.code = "zh-TW" → c.id = "chinese-traditional"))
    ∧ consolidateLanguages
        [("api1", [⟨"en", "English"⟩]),
         ("api2", [⟨"en-US", "English (US)"⟩, ⟨"en-GB", "English (UK)"⟩])]
      = [⟨"english", "English",
          [⟨"en", "English", "api1"⟩, ⟨"en-US", "English (US)", "api2"⟩,
           ⟨"en-GB", "English (UK)", "api2"⟩]⟩]
    ∧ consolidateLanguages
        [("api1", [⟨"zh-CN", "Chinese (Simplified)"⟩, ⟨"zh-TW", "Chinese (Traditional)"⟩])]
      = [⟨"chinese-simplified", "Chinese (Simplified)",
          [⟨"zh-CN", "Chinese (Simplified)", "api1"⟩]⟩,
         ⟨"chinese-traditional", "Chinese (Traditional)",
          [⟨"zh-TW", "Chinese (Traditional)", "api1"⟩]⟩] := by
  refine ⟨?_, ?_, ?_, by decide, by decide⟩
  · intro c hc v hv hcode
    have hid := idsOk_consolidateLanguages input c hc v hv
    rcases hcode with h | h | h <;> rw [h] at hid <;> rw [← hid] <;> decide
  · intro c1 hc1 c2 hc2 heq
    exact List.inj_on_of_nodup_map (nodup_id_consolidateLanguages input) hc1 hc2 heq
  · intro c hc v hv
    have hid := idsOk_consolidateLanguages input c hc v hv
    constructor
    · intro h
      rw [h] at hid
      rw [← hid]
      decide
    · intro h
      rw [h] at hid
      rw [← hid]
      decide

/-- C5 counterexample: an input CONTAINING provider entries for `en`,
`en-US` and `en-GB` — here together with `en-AU`, which canonicalises to
`english` as well — consolidates to a single `english` entry with 4
variants, not 3, so the claim's universal "for any input containing …
containing 3 variants" is false as stated. -/
theorem claim_C5_region_script_counterexample :
    consolidateLanguages
        [("api1", [⟨"en", "English"⟩, ⟨"en-US", "English (US)"⟩,
                   ⟨"en-GB", "English (UK)"⟩, ⟨"en-AU", "English (AU)"⟩])]
      = [⟨"english", "English",
          [⟨"en", "English", "api1"⟩, ⟨"en-US", "English (US)", "api1"⟩,
           ⟨"en-GB", "English (UK)", "api1"⟩, ⟨"en-AU", "English (AU)", "api1"⟩]⟩]
    ∧ ((consolidateLanguages
        [("api1", [⟨"en", "English"⟩, ⟨"en-US", "English (US)"⟩,
                   ⟨"en-GB", "English (UK)"⟩, ⟨"en-AU", "English (AU)"⟩])]).map
        (fun c => c.variants.length)) = [4]
    ∧ ¬ (((consolidateLanguages
        [("api1", [⟨"en", "English"⟩, ⟨"en-US", "English (US)"⟩,
                   ⟨"en-GB", "English (UK)"⟩, ⟨"en-AU", "English (AU)"⟩])]).map
        (fun c => c.variants.length)) = [3]) := by
  exact ⟨by decide, by decide, by decide⟩

/-- Witness for C5: on the P8 input, the `english` entry is in the output
and the amended theorem places its `en` variant under id `english`. -/
theorem claim_C5_region_script_witness :
    (⟨"english", "English",
      [⟨"en", "English", "api1"⟩, ⟨"en-US", "English (US)", "api2"⟩,
       ⟨"en-GB", "English (UK)", "api2"⟩]⟩ : ConsolidatedLanguage)
      ∈ consolidateLanguages
        [("api1", [⟨"en", "English"⟩]),
         ("api2", [⟨"en-US", "English (US)"⟩, ⟨"en-GB", "English (UK)"⟩])]
    ∧ (⟨"en", "English", "api1"⟩ : LanguageVariant)
      ∈ (⟨"english", "English",
          [⟨"en", "English", "api1"⟩, ⟨"en-US", "English (US)", "api2"⟩,
           ⟨"en-GB", "English (UK)", "api2"⟩]⟩ : ConsolidatedLanguage).variants
    ∧ (⟨"english", "English",
        [⟨"en", "English", "api1"⟩, ⟨"en-US", "English (US)", "api2"⟩,
         ⟨"en-GB", "English (UK)", "api2"⟩]⟩ : ConsolidatedLanguage).id = "english" := by
  refine ⟨by decide, by decide, ?_⟩
  exact (claim_C5_region_script
      [("api1", [⟨"en", "English"⟩]),
       ("api2", [⟨"en-US", "English (US)"⟩, ⟨"en-GB", "English (UK)"⟩])]).1
    ⟨"english", "English",
      [⟨"en", "English", "api1"⟩, ⟨"en-US", "English (US)", "api2"⟩,
       ⟨"en-GB", "English (UK)", "api2"⟩]⟩ (by decide)
    ⟨"en", "English", "api1"⟩ (by decide) (Or.inl rfl)
